import Mathlib

/-!
Verification development for a log threat-detection pipeline.

The development shallowly embeds the pipeline modules — behavior analyzer,
threat scoring, correlation engine, ML feature preprocessor, pattern catalog
and the orchestrating log analyzer — as executable Lean definitions, and
proves or refutes a list of stated properties about them.

Modelling conventions, used throughout:
- Timestamps are integers (milliseconds since the epoch).  The source keeps
  them as ISO strings and converts with `new Date(s).getTime()`; that round
  trip is the identity on the millisecond value, so the embedding works with
  the integer directly.
- JavaScript floating point arithmetic on the small integral quantities the
  program manipulates is exact; it is modelled with rationals, plus explicit
  NaN and undefined values where the source can produce them.
- Regular expressions are not re-implemented: functions driven by a regex
  (`pattern.test`, IP extraction) are taken as opaque boolean/string-valued
  parameters, and every theorem is proved for all instantiations.
- Local-time calendar lookups (`getHours`, `getDay`) are modelled as UTC;
  the deployment timezone is not part of the program and no claim depends
  on the offset.
-/

/-- JavaScript number as the embedded code needs it: an exact value (rationals
model IEEE doubles; every quantity involved is small enough that no rounding
occurs), NaN, or the `undefined` value, which coerces to NaN inside arithmetic
and makes every comparison false. -/
inductive JNum where
  | num (x : ℚ)
  | nan
  | undef
deriving DecidableEq

/-- Subtraction of JS numbers: NaN/undefined operands yield NaN. -/
def JNum.sub : JNum → JNum → JNum
  | JNum.num a, JNum.num b => JNum.num (a - b)
  | _, _ => JNum.nan

/-- Addition of JS numbers: NaN/undefined operands yield NaN. -/
def JNum.add : JNum → JNum → JNum
  | JNum.num a, JNum.num b => JNum.num (a + b)
  | _, _ => JNum.nan

/-- Comparison `x < c` against an integer constant: false when `x` is NaN or
undefined, as in JS. -/
def JNum.ltInt : JNum → Int → Bool
  | JNum.num x, c => decide (x < (c : ℚ))
  | _, _ => false

/-- Boolean `a ≤ b` on JS numbers: false when either side is NaN/undefined. -/
def JNum.leb : JNum → JNum → Bool
  | JNum.num a, JNum.num b => decide (a ≤ b)
  | _, _ => false

/-- Math.min of two JS numbers: NaN once any operand is NaN or undefined. -/
def JNum.min2 : JNum → JNum → JNum
  | JNum.num a, JNum.num b => JNum.num (min a b)
  | _, _ => JNum.nan

/-- Math.max of two JS numbers: NaN once any operand is NaN or undefined. -/
def JNum.max2 : JNum → JNum → JNum
  | JNum.num a, JNum.num b => JNum.num (max a b)
  | _, _ => JNum.nan

/-- Division of a JS number by a list length (always positive where used). -/
def JNum.divNat : JNum → Nat → JNum
  | JNum.num a, n => JNum.num (a / (n : ℚ))
  | _, _ => JNum.nan

/-- Hour-of-day of an epoch-milliseconds value (`getHours`, modelled as UTC). -/
def jsGetHours (ms : Int) : Int := (ms.fdiv 3600000).emod 24

/-- Minute-of-hour of an epoch-milliseconds value (`getMinutes`, UTC). -/
def jsGetMinutes (ms : Int) : Int := (ms.fdiv 60000).emod 60

/-- Day of week, Sunday = 0 (`getDay`, UTC); the epoch fell on a Thursday. -/
def jsGetDay (ms : Int) : Int := ((ms.fdiv 86400000) + 4).emod 7

/-- Math.round: round half toward positive infinity. -/
def jsRound (x : ℚ) : Int := ⌊x + 1 / 2⌋

/-- Character-list helper for substring search: does the second list start
with the first one? -/
def startsWithChars : List Char → List Char → Bool
  | [], _ => true
  | _ :: _, [] => false
  | p :: ps, c :: cs => p = c && startsWithChars ps cs

/-- Character-list helper: does the list contain the pattern as a contiguous
run, starting at any position? -/
def containsChars (pat : List Char) : List Char → Bool
  | [] => startsWithChars pat []
  | c :: cs => startsWithChars pat (c :: cs) || containsChars pat cs

/-- JavaScript `s.includes(pat)`: contiguous substring test. -/
def strContains (s pat : String) : Bool := containsChars pat.data s.data

/-- Accumulator loop for single-character `String.prototype.split`. -/
def splitOnCharAux (sep : Char) : List Char → List Char → List String
  | [], acc => [String.mk acc.reverse]
  | c :: cs, acc =>
      if c = sep then String.mk acc.reverse :: splitOnCharAux sep cs []
      else splitOnCharAux sep cs (c :: acc)

/-- JS `s.split(sep)` for a one-character separator: every occurrence splits,
adjacent separators produce empty pieces, and the empty string yields a
single empty piece. -/
def jsSplitChar (s : String) (sep : Char) : List String := splitOnCharAux sep s.data []

/-- JS `s.trim()`: strip leading and trailing whitespace (the inputs here
are ASCII, where JS and this model agree). -/
def jsTrim (s : String) : String :=
  String.mk (((s.data.dropWhile Char.isWhitespace).reverse.dropWhile Char.isWhitespace).reverse)

/-- JS `s.toLowerCase()` as character-wise lowering (ASCII inputs). -/
def jsToLower (s : String) : String := String.mk (s.data.map Char.toLower)

/-- Numeric value of a run of decimal digits. -/
def digitsVal (ds : List Char) : Nat := ds.foldl (fun acc c => acc * 10 + (c.toNat - 48)) 0

/-- Spreading a list into `new Set` and back ( `[...new Set(xs)]` ) keeps the
first occurrence of each element, in first-seen order. -/
def dedupFirstAux (seen : List String) : List String → List String
  | [] => []
  | x :: xs => if x ∈ seen then dedupFirstAux seen xs else x :: dedupFirstAux (x :: seen) xs

/-- First-occurrence deduplication, the JS `[...new Set(xs)]` idiom. -/
def dedupFirst (xs : List String) : List String := dedupFirstAux [] xs

/-- Association-list lookup keyed by strings (JS `Map.get` / object access;
keys are unique by construction everywhere this is used). -/
def lookupStr {β : Type} (k : String) : List (String × β) → Option β
  | [] => none
  | (k2, v) :: rest => if k = k2 then some v else lookupStr k rest

/-- JS `Map.set`: overwrite the value at an existing key in place, or append a
new binding at the end (JS Maps iterate in insertion order). -/
def setStr {β : Type} (k : String) (v : β) : List (String × β) → List (String × β)
  | [] => [(k, v)]
  | (k2, v2) :: rest => if k = k2 then (k, v) :: rest else (k2, v2) :: setStr k v rest

/-- Truthiness of a nullable string: null/absent and the empty string are
falsy in JS. -/
def jsTruthyStr : Option String → Bool
  | some s => decide (s ≠ "")
  | none => false

/-!
Behavior analyzer (source `behaviorAnalyzer.js`): per-source activity log,
frequency / timing / sequence signals and a risk score.
-/

/-- One tracked activity record: `{ action, timestamp }`.  The source stores
the timestamp as an ISO string; it is modelled by its millisecond value. -/
structure Activity where
  action : String
  timestamp : Int
deriving DecidableEq

/-- The analyzer's `activityLog`: a JS `Map` from ip to its record list,
modelled as an insertion-ordered association list. -/
abbrev ActivityLog : Type := List (String × List Activity)

/-- Threshold `maxAttemptsPerMinute` from `ipThresholds`. -/
def maxAttemptsPerMinute : Nat := 30

/-- Threshold `maxFailedLogins` from `ipThresholds`. -/
def maxFailedLogins : Nat := 5

/-- Records stored for an ip (`activityLog.get(ip)`, empty when absent). -/
def getActivities (log : ActivityLog) (ip : String) : List Activity :=
  match lookupStr ip log with
  | some l => l
  | none => []

/-- The analyzer's `cleanup(ip)`: keep only records strictly newer than one
hour before the wall-clock `now` of the call. -/
def cleanup (now : Int) (log : ActivityLog) (ip : String) : ActivityLog :=
  let oneHourAgo := now - 60 * 60 * 1000
  setStr ip ((getActivities log ip).filter fun a => decide (a.timestamp > oneHourAgo)) log

/-- The analyzer's `trackActivity(ip, action, timestamp)`: append the record
for `ip` (creating the entry when absent), then run `cleanup` for that ip.
`now` is the wall clock at the moment of the call (`Date.now()` inside
`cleanup`). -/
def trackActivity (now : Int) (log : ActivityLog) (ip : String) (action : String)
    (timestamp : Int) : ActivityLog :=
  let log1 := setStr ip (getActivities log ip ++ [{ action := action, timestamp := timestamp }]) log
  cleanup now log1 ip

/-- Result shape of `calculateFrequency`. -/
structure Frequency where
  rate : Nat
  isHighFrequency : Bool
deriving DecidableEq

/-- The analyzer's `calculateFrequency`: count records from the last minute of
wall-clock `now`; high frequency above `maxAttemptsPerMinute`. -/
def calculateFrequency (now : Int) (activities : List Activity) : Frequency :=
  if activities.length = 0 then { rate := 0, isHighFrequency := false }
  else
    let recentActivities := activities.filter fun a => decide (now - a.timestamp ≤ 60000)
    { rate := recentActivities.length
      isHighFrequency := decide (recentActivities.length > maxAttemptsPerMinute) }

/-- Consecutive-difference list of the timestamps, in record order
(the `for i in 1..` loop building `intervals`). -/
def intervalsOf : List Int → List Int
  | a :: b :: rest => (b - a) :: intervalsOf (b :: rest)
  | _ => []

/-- The analyzer's `checkRegularIntervals`: with at least three gaps, flag
when the mean absolute deviation from the average gap is below 100 ms.  The
float divisions are modelled exactly with rationals. -/
def checkRegularIntervals (intervals : List Int) : Bool :=
  if intervals.length < 3 then false
  else
    let avgInterval : ℚ := ((intervals.map (fun i => (i : ℚ))).sum) / (intervals.length : ℚ)
    let deviation : ℚ :=
      ((intervals.map (fun i => |(i : ℚ) - avgInterval|)).sum) / (intervals.length : ℚ)
    decide (deviation < 100)

/-- Result shape of `checkTimingPatterns`.  The empty-activities early return
of the source carries only `suspicious`; the two omitted keys are read only
for truthiness downstream, where absent and `false` coincide. -/
structure Timing where
  suspicious : Bool
  regularPattern : Bool
  unusualTiming : Bool
deriving DecidableEq

/-- The analyzer's `checkTimingPatterns`: regular-interval detection plus an
unusual-hours check (some record in the 2 AM – 5 AM band). -/
def checkTimingPatterns (activities : List Activity) : Timing :=
  if activities.length = 0 then
    { suspicious := false, regularPattern := false, unusualTiming := false }
  else
    let timestamps := activities.map (fun a => a.timestamp)
    let intervals := intervalsOf timestamps
    let isRegularPattern := checkRegularIntervals intervals
    let hasUnusualTiming := activities.any fun a =>
      decide (2 ≤ jsGetHours a.timestamp ∧ jsGetHours a.timestamp ≤ 5)
    { suspicious := isRegularPattern || hasUnusualTiming
      regularPattern := isRegularPattern
      unusualTiming := hasUnusualTiming }

/-- In `checkRapidSuccession` the source computes
`new Date(activities[i].timestamp).getTime() - new Date(activities[i-1]).getTime()`:
the second conversion is applied to the record object itself, not to its
`.timestamp` field.  `new Date` of a plain object is an Invalid Date, whose
`getTime()` is NaN; this definition records that fact of the source. -/
def recordAsDateGetTime (_ : Activity) : JNum := JNum.nan

/-- Body of the `checkRapidSuccession` index loop, pairwise over consecutive
records: `timeDiff < 1000` with the NaN-producing conversion above. -/
def rapidLoop : List Activity → Bool
  | prev :: cur :: rest =>
      (JNum.sub (JNum.num (cur.timestamp : ℚ)) (recordAsDateGetTime prev)).ltInt 1000
        || rapidLoop (cur :: rest)
  | _ => false

/-- The analyzer's `checkRapidSuccession`. -/
def checkRapidSuccession (activities : List Activity) : Bool :=
  if activities.length < 2 then false else rapidLoop activities

/-- The analyzer's `containsSequence`: join both lists with commas and test
substring containment. -/
def containsSequence (array sequenceArr : List String) : Bool :=
  strContains (String.intercalate "," array) (String.intercalate "," sequenceArr)

/-- The analyzer's `detectKnownPatterns`: two fixed action subsequences. -/
def detectKnownPatterns (activities : List Activity) : Bool :=
  let actions := activities.map (fun a => a.action)
  [["failed_login", "success_login", "access_sensitive"],
   ["port_scan", "vulnerability_scan", "exploit_attempt"]].any fun pattern =>
    containsSequence actions pattern

/-- The `suspiciousSequences` record built inside `checkActionSequence`. -/
structure SequenceDetails where
  failedLogins : Bool
  rapidSuccession : Bool
  patternDetected : Bool
deriving DecidableEq

/-- Result shape of `checkActionSequence`. -/
structure SequenceReport where
  suspicious : Bool
  details : SequenceDetails
deriving DecidableEq

/-- The analyzer's `checkActionSequence`. -/
def checkActionSequence (activities : List Activity) : SequenceReport :=
  let failedLogins := (activities.filter fun a => decide (a.action = "failed_login")).length
  let details : SequenceDetails :=
    { failedLogins := decide (failedLogins ≥ maxFailedLogins)
      rapidSuccession := checkRapidSuccession activities
      patternDetected := detectKnownPatterns activities }
  { suspicious := details.failedLogins || details.rapidSuccession || details.patternDetected
    details := details }

/-- The analyzer's `calculateRiskScore`: additive signals capped at 100, plus
a volume term `min(20, count)`. -/
def calculateRiskScore (now : Int) (activities : List Activity) : Int :=
  let frequency := calculateFrequency now activities
  let timing := checkTimingPatterns activities
  let sequenceReport := checkActionSequence activities
  let score : Int :=
    (if frequency.isHighFrequency then 30 else 0)
      + (if timing.suspicious then 25 else 0)
      + (if sequenceReport.suspicious then 25 else 0)
      + min 20 (activities.length : Int)
  min 100 score

/-- Result shape of `analyzePattern` (the per-source behavior signal). -/
structure BehaviorReport where
  frequency : Frequency
  unusualTiming : Timing
  suspiciousSequence : SequenceReport
  riskScore : Int
deriving DecidableEq

/-- The analyzer's `analyzePattern(ip)`: computed freshly from the current
records of `ip`; performs no pruning of its own.  `now` is the wall clock of
the call (used by the frequency signal). -/
def analyzePattern (now : Int) (log : ActivityLog) (ip : String) : BehaviorReport :=
  let activities := getActivities log ip
  { frequency := calculateFrequency now activities
    unusualTiming := checkTimingPatterns activities
    suspiciousSequence := checkActionSequence activities
    riskScore := calculateRiskScore now activities }

/-!
Threat scoring (source `threatScoring.js`): severity/category/context/behavior
weights, time-based bonus, level classification and recommended actions.
-/

/-- The scorer's `severityWeights` table, with the JS `|| 0` default for a
severity outside the table (note: CRITICAL is not in the table). -/
def severityWeights : String → Int
  | "HIGH" => 70
  | "MEDIUM" => 40
  | "LOW" => 20
  | _ => 0

/-- The scorer's `categoryWeights` table, with the JS `|| 0` default for a
category outside the table. -/
def categoryWeights : String → Int
  | "AUTH" => 25
  | "INJECTION" => 30
  | "XSS" => 25
  | "RECONNAISSANCE" => 20
  | "MALWARE" => 30
  | "FILE_SYSTEM" => 25
  | "NETWORK" => 20
  | "DATABASE" => 25
  | _ => 0

/-- The context object built by `analyzeContext` and consumed by the scorer. -/
structure Context where
  timeWindow : Int
  occurrences : Int
  relatedEvents : List String
deriving DecidableEq

/-- The scorer's `calculateContextScore`.  The occurrence bonus applies only
when `occurrences > 1`; the related-events bonus only when the list is
non-empty.  A null context contributes zero. -/
def calculateContextScore (context : Option Context) : Int :=
  match context with
  | none => 0
  | some c =>
      (if 1 < c.occurrences then min (c.occurrences * 5) 20 else 0)
        + (if 0 < c.relatedEvents.length then min ((c.relatedEvents.length : Int) * 3) 15 else 0)

/-- The scorer's `calculateBehaviorScore` (null behavior contributes zero). -/
def calculateBehaviorScore (behaviorAnalysis : Option BehaviorReport) : Int :=
  match behaviorAnalysis with
  | none => 0
  | some b =>
      (if b.frequency.isHighFrequency then 15 else 0)
        + (if b.unusualTiming.suspicious then
            10 + (if b.unusualTiming.regularPattern then 5 else 0)
          else 0)
        + (if b.suspiciousSequence.suspicious then 15 else 0)

/-- The scorer's `calculateTimeBasedScore`: night-hours and weekend bonuses. -/
def calculateTimeBasedScore (timestamp : Int) : Int :=
  let hour := jsGetHours timestamp
  let day := jsGetDay timestamp
  (if 22 ≤ hour ∨ hour ≤ 5 then 10 else 0) + (if day = 0 ∨ day = 6 then 5 else 0)

/-- The ad-hoc `{ severity, category, timestamp }` object the pipeline passes
to `calculateThreatScore`. -/
structure ScoredHit where
  severity : String
  category : String
  timestamp : Int
deriving DecidableEq

/-- The scorer's `calculateThreatScore`: sum of the five weight groups,
clamped to [0, 100].  All contributions are integers, so the source's
`Math.round` is the identity here. -/
def calculateThreatScore (threat : ScoredHit) (context : Option Context)
    (behaviorAnalysis : Option BehaviorReport) : Int :=
  let score :=
    severityWeights threat.severity + categoryWeights threat.category
      + calculateContextScore context + calculateBehaviorScore behaviorAnalysis
      + calculateTimeBasedScore threat.timestamp
  min (max score 0) 100

/-- The scorer's `getThreatLevel`: inclusive lower bounds, highest first. -/
def getThreatLevel (score : Int) : String :=
  if 80 ≤ score then "CRITICAL"
  else if 60 ≤ score then "HIGH"
  else if 40 ≤ score then "MEDIUM"
  else if 20 ≤ score then "LOW"
  else "INFO"

/-- Result shape of `getRecommendedActions`. -/
structure RecommendedActions where
  immediate : Bool
  actions : List String
deriving DecidableEq

/-- The `baseActions` table of `getRecommendedActions`; a level outside the
table (INFO) falls back to the LOW entry (`baseActions[threatLevel] ||
baseActions.LOW`). -/
def baseActions (threatLevel : String) : RecommendedActions :=
  match threatLevel with
  | "CRITICAL" =>
      { immediate := true
        actions := ["Block source IP immediately", "Alert security team",
          "Initiate incident response"] }
  | "HIGH" =>
      { immediate := true
        actions := ["Investigate immediately", "Consider IP blocking",
          "Monitor related systems"] }
  | "MEDIUM" =>
      { immediate := false
        actions := ["Investigate within 4 hours", "Increase monitoring",
          "Review security logs"] }
  | _ => { immediate := false, actions := ["Monitor activity", "Log for future reference"] }

/-- The `categorySpecificActions` table of `getRecommendedActions`; an
unknown category or a level without an entry yields the empty list. -/
def categorySpecificActions (category threatLevel : String) : List String :=
  match category, threatLevel with
  | "AUTH", "CRITICAL" =>
      ["Reset all user credentials", "Enable 2FA for all users", "Lock affected accounts"]
  | "AUTH", "HIGH" =>
      ["Review authentication logs", "Enable additional monitoring for auth endpoints"]
  | "AUTH", "MEDIUM" =>
      ["Review failed login attempts", "Check for unusual login patterns"]
  | "AUTH", "LOW" => ["Monitor authentication activity"]
  | "INJECTION", "CRITICAL" =>
      ["Block malicious IPs", "Patch vulnerable endpoints", "Review input validation"]
  | "INJECTION", "HIGH" => ["Enable WAF rules", "Review input sanitization"]
  | "INJECTION", "MEDIUM" => ["Monitor SQL queries", "Review application logs"]
  | "INJECTION", "LOW" => ["Log suspicious requests"]
  | "XSS", "CRITICAL" => ["Implement Content Security Policy", "Sanitize all user inputs"]
  | "XSS", "HIGH" => ["Review output encoding", "Enable XSS protection headers"]
  | "XSS", "MEDIUM" => ["Monitor suspicious patterns", "Review client-side scripts"]
  | "XSS", "LOW" => ["Log suspicious requests"]
  | "RECONNAISSANCE", "CRITICAL" => ["Block scanning IPs", "Review firewall rules"]
  | "RECONNAISSANCE", "HIGH" => ["Enable rate limiting", "Monitor unusual traffic patterns"]
  | "RECONNAISSANCE", "MEDIUM" => ["Review access logs", "Monitor port scanning attempts"]
  | "RECONNAISSANCE", "LOW" => ["Log suspicious activity"]
  | "MALWARE", "CRITICAL" => ["Isolate affected systems", "Run full system scan", "Update antivirus"]
  | "MALWARE", "HIGH" => ["Review file integrity", "Scan for indicators of compromise"]
  | "MALWARE", "MEDIUM" => ["Monitor system behavior", "Update security definitions"]
  | "MALWARE", "LOW" => ["Log suspicious files"]
  | "FILE_SYSTEM", "CRITICAL" => ["Lock down file permissions", "Review file access logs"]
  | "FILE_SYSTEM", "HIGH" => ["Monitor file operations", "Check file integrity"]
  | "FILE_SYSTEM", "MEDIUM" => ["Review access patterns", "Monitor sensitive directories"]
  | "FILE_SYSTEM", "LOW" => ["Log file access attempts"]
  | "NETWORK", "CRITICAL" => ["Block suspicious traffic", "Review firewall rules"]
  | "NETWORK", "HIGH" => ["Monitor network patterns", "Review network logs"]
  | "NETWORK", "MEDIUM" => ["Check unusual connections", "Monitor bandwidth usage"]
  | "NETWORK", "LOW" => ["Log network activity"]
  | "DATABASE", "CRITICAL" => ["Block database access", "Review database permissions"]
  | "DATABASE", "HIGH" => ["Monitor query patterns", "Review database logs"]
  | "DATABASE", "MEDIUM" => ["Check unusual queries", "Monitor database load"]
  | "DATABASE", "LOW" => ["Log database access"]
  | _, _ => []

/-- The scorer's `getRecommendedActions`: the base action set of the level,
with the category-specific actions appended. -/
def getRecommendedActions (score : Int) (category : String) : RecommendedActions :=
  let threatLevel := getThreatLevel score
  let baseActionSet := baseActions threatLevel
  { immediate := baseActionSet.immediate
    actions := baseActionSet.actions ++ categorySpecificActions category threatLevel }

/-!
The Threat record built by the pipeline for every pattern hit
(`analyzeLogs` in `logAnalyzer.js`).
-/

/-- One detected threat, as assembled by the pipeline per pattern hit. -/
structure Threat where
  message : String
  severity : String
  category : String
  timestamp : Int
  lineNumber : Nat
  context : Context
  sourceIP : Option String
  behaviorAnalysis : Option BehaviorReport
  threatScore : Int
  threatLevel : String
  recommendedActions : RecommendedActions
deriving DecidableEq

/-!
Correlation engine (source `correlationEngine.js`): greedy grouping of
correlated threats, attack-template matching, and a summary.
-/

/-- One entry of the engine's `correlationRules` table. -/
structure CorrelationRule where
  relatedCategories : List String
  threshold : Nat
  timeWindow : Int
deriving DecidableEq

/-- The engine's `correlationRules`, keyed by the primary threat's category. -/
def correlationRules : String → Option CorrelationRule
  | "AUTH" =>
      some { relatedCategories := ["RECONNAISSANCE", "INJECTION"], threshold := 3
             timeWindow := 300000 }
  | "RECONNAISSANCE" =>
      some { relatedCategories := ["INJECTION", "XSS", "AUTH"], threshold := 2
             timeWindow := 600000 }
  | "INJECTION" =>
      some { relatedCategories := ["XSS", "AUTH"], threshold := 2, timeWindow := 300000 }
  | _ => none

/-- The engine's default window `timeWindowMs` (15 minutes). -/
def timeWindowMs : Int := 900000

/-- Result shape of `checkCorrelation`. -/
structure Correlation where
  isCorrelated : Bool
  type : List String
deriving DecidableEq

/-- The engine's `checkCorrelation(threat1, threat2)`: temporal (window from
threat1's category rule, defaulting to 15 minutes — every rule window is
non-zero, so the JS `||` fallback fires exactly when there is no rule), same
source IP (both non-null), and categorical (threat2's category in threat1's
rule's related list).  Type labels are pushed in that order. -/
def checkCorrelation (threat1 threat2 : Threat) : Correlation :=
  let timeDiff := |threat1.timestamp - threat2.timestamp|
  let sameIP : Bool :=
    match threat1.sourceIP, threat2.sourceIP with
    | some a, some b => jsTruthyStr (some a) && jsTruthyStr (some b) && decide (a = b)
    | _, _ => false
  let rule := correlationRules threat1.category
  let temporal : Bool :=
    decide (timeDiff ≤ (match rule with | some r => r.timeWindow | none => timeWindowMs))
  let categorical : Bool :=
    match rule with
    | some r => decide (threat2.category ∈ r.relatedCategories)
    | none => false
  { isCorrelated := temporal || sameIP || categorical
    type := (if temporal then ["temporal"] else []) ++ (if sameIP then ["source"] else [])
      ++ (if categorical then ["categorical"] else []) }

/-- The engine's `getThreatLevelWeight` (unknown level and INFO both 0 via
the `|| 0` default). -/
def getThreatLevelWeight (level : String) : Int :=
  match level with
  | "CRITICAL" => 4
  | "HIGH" => 3
  | "MEDIUM" => 2
  | "LOW" => 1
  | _ => 0

/-- One correlated group.  The source stores the threat objects
(`primaryThreat`, `relatedThreats`); the embedding carries their positions in
the input list (so that occurrence statements are exact even with duplicate
threat values) together with the data the source derives from them:
`relatedThreats = relatedIdxs.map (threats[·])`. -/
structure CorrelatedGroup where
  primaryIdx : Nat
  relatedIdxs : List Nat
  correlationType : List (List String)
  riskLevel : String
deriving DecidableEq

/-- The inner `threats.forEach((relatedThreat, relatedIndex) => ...)` scan of
`findCorrelatedEvents` for primary index `i`.  During the source's scan the
processed set only ever gains indices the scan has already passed (a visited
index is added at the moment it is visited, and `i` itself only after the
scan), so testing membership against the set as it stood before the scan is
exactly the source's behaviour. -/
def relatedPairs (threats : List Threat) (processed : List Nat) (i : Nat) (t : Threat) :
    List (Nat × Threat) :=
  threats.enum.filter fun ju =>
    decide (ju.1 ≠ i) && decide (ju.1 ∉ processed) && (checkCorrelation t ju.2).isCorrelated

/-- Risk level of a group: start from the primary's level (`threat.threatLevel
|| 'MEDIUM'`, the empty string being falsy) and upgrade along the related
threats in scan order. -/
def groupRiskLevel (t : Threat) (related : List Threat) : String :=
  related.foldl
    (fun r u => if getThreatLevelWeight u.threatLevel > getThreatLevelWeight r then u.threatLevel else r)
    (if t.threatLevel = "" then "MEDIUM" else t.threatLevel)

/-- The outer `threats.forEach((threat, index) => ...)` loop of
`findCorrelatedEvents`, walking the enumerated input and threading the
processed-index set; a group is emitted (and its members claimed) only when
at least one related threat was found. -/
def findAux (threats : List Threat) : List (Nat × Threat) → List Nat → List CorrelatedGroup
  | [], _ => []
  | (i, t) :: rest, processed =>
      if i ∈ processed then findAux threats rest processed
      else if (relatedPairs threats processed i t).isEmpty then findAux threats rest processed
      else
        { primaryIdx := i
          relatedIdxs := (relatedPairs threats processed i t).map (fun ju => ju.1)
          correlationType :=
            (relatedPairs threats processed i t).map (fun ju => (checkCorrelation t ju.2).type)
          riskLevel := groupRiskLevel t ((relatedPairs threats processed i t).map (fun ju => ju.2)) }
          :: findAux threats rest
              (i :: (relatedPairs threats processed i t).map (fun ju => ju.1) ++ processed)

/-- The engine's `findCorrelatedEvents`. -/
def findCorrelatedEvents (threats : List Threat) : List CorrelatedGroup :=
  findAux threats threats.enum []

/-- One attack-template match (`matchPattern` result). -/
structure AttackPatternMatch where
  name : String
  threats : List Threat
  timestamp : Int
  confidence : String
deriving DecidableEq

/-- One entry of the engine's `knownPatterns` table; absent JS keys are
`none`. -/
structure KnownPattern where
  name : String
  sequenceFirst : Option String := none
  sequenceFollow : List String := []
  category : Option String := none
  minOccurrences : Option Nat := none
  uniqueCategories : Option Nat := none
  timeWindow : Int
deriving DecidableEq

/-- The engine's three `knownPatterns` (the first one's `sequence` array is
split here into its head and the follow-set). -/
def knownPatternsList : List KnownPattern :=
  [{ name := "Reconnaissance followed by Attack", sequenceFirst := some "RECONNAISSANCE"
     sequenceFollow := ["INJECTION", "XSS", "AUTH"], timeWindow := 1800000 },
   { name := "Brute Force Attack", category := some "AUTH", minOccurrences := some 5
     timeWindow := 300000 },
   { name := "Multi-Vector Attack", uniqueCategories := some 3, timeWindow := 900000 }]

/-- Timestamp of the first threat of a window (`threats[0].timestamp`); every
window built by `findTimeWindows` is non-empty, so the default is unreachable. -/
def firstTimestamp : List Threat → Int
  | t :: _ => t.timestamp
  | [] => 0

/-- The `nextThreats.find(...)` step of `matchSequencePattern`: first later
threat whose category is in the follow-set and whose distance from the first
threat is within the window. -/
def findFollow (first : Threat) (cats : List String) (window : Int) :
    List Threat → Option Threat
  | [] => none
  | u :: rest =>
      if decide (u.category ∈ cats) && decide (u.timestamp - first.timestamp ≤ window) then some u
      else findFollow first cats window rest

/-- The index loop of `matchSequencePattern` (`i < threats.length - 1`, so a
final element cannot start a match). -/
def seqLoop (name seqFirst : String) (seqFollow : List String) (window : Int) :
    List Threat → Option AttackPatternMatch
  | [] => none
  | [_] => none
  | t :: rest =>
      if t.category = seqFirst then
        match findFollow t seqFollow window rest with
        | some follow =>
            some { name := name, threats := [t, follow], timestamp := t.timestamp
                   confidence := "HIGH" }
        | none => seqLoop name seqFirst seqFollow window rest
      else seqLoop name seqFirst seqFollow window rest

/-- The engine's `findTimeWindows`: for every start threat, greedily extend
with following threats while their distance from the start is within the
window (the inner loop breaks at the first that is not); keep windows of
size at least 2. -/
def findTimeWindows : List Threat → Int → List (List Threat)
  | [], _ => []
  | t :: rest, windowSize =>
      let windowThreats :=
        t :: rest.takeWhile fun u => decide (u.timestamp - t.timestamp ≤ windowSize)
      (if windowThreats.length > 1 then [windowThreats] else []) ++ findTimeWindows rest windowSize

/-- The engine's `matchFrequencyPattern`. -/
def matchFrequencyPattern (threats : List Threat) (name category : String)
    (minOccurrences : Nat) (timeWindow : Int) : Option AttackPatternMatch :=
  let categoryThreats := threats.filter fun t => decide (t.category = category)
  let windows := findTimeWindows categoryThreats timeWindow
  match windows.find? (fun w => decide (w.length ≥ minOccurrences)) with
  | some w =>
      some { name := name, threats := w, timestamp := firstTimestamp w, confidence := "HIGH" }
  | none => none

/-- The engine's `matchDiversityPattern` (`new Set(categories).size` is the
number of distinct categories). -/
def matchDiversityPattern (threats : List Threat) (name : String) (uniqueCategories : Nat)
    (timeWindow : Int) : Option AttackPatternMatch :=
  let windows := findTimeWindows threats timeWindow
  match windows.find?
      (fun w => decide ((dedupFirst (w.map fun t => t.category)).length ≥ uniqueCategories)) with
  | some w =>
      some { name := name, threats := w, timestamp := firstTimestamp w, confidence := "MEDIUM" }
  | none => none

/-- The engine's `matchPattern` dispatch: sequence, then frequency, then
diversity.  In the frequency branch `pattern.category` is always present in
the source's table, so the empty-string default is unreachable. -/
def matchPattern (threats : List Threat) (p : KnownPattern) : Option AttackPatternMatch :=
  match p.sequenceFirst with
  | some sf => seqLoop p.name sf p.sequenceFollow p.timeWindow threats
  | none =>
      match p.minOccurrences with
      | some m =>
          matchFrequencyPattern threats p.name
            (match p.category with | some c => c | none => "") m p.timeWindow
      | none =>
          match p.uniqueCategories with
          | some u => matchDiversityPattern threats p.name u p.timeWindow
          | none => none

/-- The engine's `identifyAttackPatterns`: sort a copy by timestamp (the JS
comparator `dateA - dateB` with a stable sort, matched by `mergeSort`) and
collect the templates that match. -/
def identifyAttackPatterns (threats : List Threat) : List AttackPatternMatch :=
  let timeOrderedThreats := threats.mergeSort fun a b => decide (a.timestamp ≤ b.timestamp)
  knownPatternsList.filterMap fun p => matchPattern timeOrderedThreats p

/-- Increment the count of a key in `typeCounts` (object keys keep insertion
order; a new key is appended). -/
def bumpCount (counts : List (String × Nat)) (key : String) : List (String × Nat) :=
  match lookupStr key counts with
  | some _ => counts.map fun p => if p.1 = key then (p.1, p.2 + 1) else p
  | none => counts ++ [(key, 1)]

/-- The engine's `getMostCommonCorrelationType`.  Each pushed
`correlation.type` is itself an array, and using it as an object key coerces
it to its comma-joined string; `Object.entries` preserves insertion order and
the stable descending sort keeps first-seen keys first among equal counts. -/
def getMostCommonCorrelationType (correlatedEvents : List CorrelatedGroup) : String :=
  let typeCounts := correlatedEvents.foldl
    (fun acc g => g.correlationType.foldl
      (fun acc2 tl => bumpCount acc2 (String.intercalate "," tl)) acc)
    []
  match (typeCounts.mergeSort fun a b => decide (a.2 ≥ b.2)).head? with
  | some p => p.1
  | none => "none"

/-- Result shape of `generateCorrelationSummary`. -/
structure CorrelationSummary where
  totalCorrelatedGroups : Nat
  totalPatterns : Nat
  criticalCorrelations : Nat
  patternTypes : List String
  mostCommonCorrelationType : String
deriving DecidableEq

/-- The engine's `generateCorrelationSummary`. -/
def generateCorrelationSummary (correlatedEvents : List CorrelatedGroup)
    (patterns : List AttackPatternMatch) : CorrelationSummary :=
  { totalCorrelatedGroups := correlatedEvents.length
    totalPatterns := patterns.length
    criticalCorrelations := (correlatedEvents.filter fun g => decide (g.riskLevel = "CRITICAL")).length
    patternTypes := patterns.map fun p => p.name
    mostCommonCorrelationType := getMostCommonCorrelationType correlatedEvents }

/-- Result shape of `correlateThreats`.  The early return for an empty (or
non-array, impossible for a typed list) input is the object
`{ correlatedEvents: [], patterns: [] }`, which carries no `summary` key;
the missing key is modelled by `none`. -/
structure CorrelationResult where
  correlatedEvents : List CorrelatedGroup
  patterns : List AttackPatternMatch
  summary : Option CorrelationSummary
deriving DecidableEq

/-- The engine's `correlateThreats`. -/
def correlateThreats (threats : List Threat) : CorrelationResult :=
  if threats.length = 0 then { correlatedEvents := [], patterns := [], summary := none }
  else
    let correlatedEvents := findCorrelatedEvents threats
    let patterns := identifyAttackPatterns threats
    { correlatedEvents := correlatedEvents
      patterns := patterns
      summary := some (generateCorrelationSummary correlatedEvents patterns) }

/-!
ML preprocessor (source `mlPreprocessor.js`): per-threat feature rows and
run-level metadata.  All feature values the source produces are numbers
(booleans are already mapped through `? 1 : 0`), and they are integers, so a
feature row is an insertion-ordered association list of integer values; the
statistics, where NaN can arise, live in `JNum`.
-/

/-- The preprocessor's `categoryEncoding` table (`|| 0` default). -/
def categoryEncoding : String → Int
  | "AUTH" => 1
  | "INJECTION" => 2
  | "XSS" => 3
  | "RECONNAISSANCE" => 4
  | "MALWARE" => 5
  | "FILE_SYSTEM" => 6
  | "NETWORK" => 7
  | "DATABASE" => 8
  | _ => 0

/-- The preprocessor's `severityEncoding` table (`|| 0` default). -/
def severityEncoding : String → Int
  | "CRITICAL" => 4
  | "HIGH" => 3
  | "MEDIUM" => 2
  | "LOW" => 1
  | _ => 0

/-- Leading decimal digits of a character list. -/
def leadingDigits : List Char → List Char
  | [] => []
  | c :: cs => if c.isDigit then c :: leadingDigits cs else []

/-- JS `parseInt(s) || 0` as applied to the pieces of a dotted-decimal IP:
parse the leading digit run; no digits (including the undefined piece of a
too-short split) gives NaN, which `|| 0` turns into 0.  The full `parseInt`
also skips signs and whitespace, which cannot occur in these inputs. -/
def jsParseIntOr0 (s : String) : Int :=
  match leadingDigits s.data with
  | [] => 0
  | ds => (digitsVal ds : Int)

/-- The preprocessor's `isPrivateIP`: RFC1918 first/second octet tests.  The
source maps the pieces through `Number`, which agrees with `jsParseIntOr0` on
digit-only pieces; a piece for which they could differ never passes any of
the equality/range tests with either reading. -/
def isPrivateIP (ip : Option String) : Bool :=
  match ip with
  | none => false
  | some s =>
      let parts := (jsSplitChar s '.').map jsParseIntOr0
      let p0 : Int := match parts.head? with | some v => v | none => 0
      let p1 : Int := match parts.get? 1 with | some v => v | none => 0
      decide (p0 = 10) || (decide (p0 = 172) && decide (16 ≤ p1) && decide (p1 ≤ 31))
        || (decide (p0 = 192) && decide (p1 = 168))

/-- The preprocessor's `extractTimeFeatures` (the `timeFeatures` flag is
always true in the source's `featureConfig`). -/
def extractTimeFeatures (threat : Threat) : List (String × Int) :=
  let hour := jsGetHours threat.timestamp
  let day := jsGetDay threat.timestamp
  [("hour", hour), ("minute", jsGetMinutes threat.timestamp), ("dayOfWeek", day),
   ("isWeekend", if day = 0 ∨ day = 6 then 1 else 0),
   ("isBusinessHours", if 9 ≤ hour ∧ hour ≤ 17 then 1 else 0),
   ("isNightTime", if 22 ≤ hour ∨ hour ≤ 5 then 1 else 0)]

/-- The preprocessor's `extractIPFeatures`: the whole group is skipped (empty
object) when the threat has no truthy source IP. -/
def extractIPFeatures (threat : Threat) : List (String × Int) :=
  if jsTruthyStr threat.sourceIP then
    let ip := match threat.sourceIP with | some s => s | none => ""
    let ipParts := jsSplitChar ip '.'
    [("ipFirstOctet", jsParseIntOr0 (match ipParts.head? with | some s => s | none => "")),
     ("ipSecondOctet", jsParseIntOr0 (match ipParts.get? 1 with | some s => s | none => "")),
     ("isPrivateIP", if isPrivateIP threat.sourceIP then 1 else 0),
     ("hasSourceIP", 1)]
  else []

/-- The preprocessor's `extractTextFeatures`.  The source lowercases the
message and then applies case-insensitive regexes whose branches are plain
lowercase literals, so each test is a substring check on the lowercased
message; `messageLength` counts the original message. -/
def extractTextFeatures (threat : Threat) : List (String × Int) :=
  let message := jsToLower threat.message
  [("messageLength", (threat.message.length : Int)),
   ("containsError",
     if strContains message "error" || strContains message "fail" || strContains message "invalid"
     then 1 else 0),
   ("containsAdmin",
     if strContains message "admin" || strContains message "root" || strContains message "supervisor"
     then 1 else 0),
   ("containsSQLKeywords",
     if strContains message "select" || strContains message "insert" || strContains message "update"
        || strContains message "delete" || strContains message "union" || strContains message "drop"
     then 1 else 0),
   ("containsScriptTags",
     if strContains message "<script" || strContains message "javascript:" then 1 else 0)]

/-- The preprocessor's `extractBehaviorFeatures`: skipped entirely when the
threat carries no behavior analysis. -/
def extractBehaviorFeatures (threat : Threat) : List (String × Int) :=
  match threat.behaviorAnalysis with
  | none => []
  | some b =>
      [("frequencyRate", (b.frequency.rate : Int)),
       ("isHighFrequency", if b.frequency.isHighFrequency then 1 else 0),
       ("hasSuspiciousTiming", if b.unusualTiming.suspicious then 1 else 0),
       ("hasRegularPattern", if b.unusualTiming.regularPattern then 1 else 0),
       ("hasSuspiciousSequence", if b.suspiciousSequence.suspicious then 1 else 0),
       ("behaviorRiskScore", b.riskScore)]

/-- The preprocessor's `extractContextFeatures`.  The pipeline always builds a
context object for a threat, so the null-context early return cannot fire. -/
def extractContextFeatures (threat : Threat) : List (String × Int) :=
  [("contextOccurrences", threat.context.occurrences),
   ("hasRelatedEvents", if 0 < threat.context.relatedEvents.length then 1 else 0),
   ("relatedEventsCount", (threat.context.relatedEvents.length : Int))]

/-- The preprocessor's `extractBasicFeatures`. -/
def extractBasicFeatures (threat : Threat) : List (String × Int) :=
  [("categoryEncoded", categoryEncoding threat.category),
   ("severityEncoded", severityEncoding threat.severity),
   ("threatScore", threat.threatScore)]

/-- One feature row: the object spread of the six extractor groups.  Their
key sets are pairwise disjoint, so the spread is concatenation in insertion
order. -/
def featureRow (threat : Threat) : List (String × Int) :=
  extractTimeFeatures threat ++ extractIPFeatures threat ++ extractTextFeatures threat
    ++ extractBehaviorFeatures threat ++ extractContextFeatures threat
    ++ extractBasicFeatures threat

/-- Access `f[column]` on a feature row: a missing key is `undefined`. -/
def featureValue (f : List (String × Int)) (column : String) : JNum :=
  match lookupStr column f with
  | some v => JNum.num (v : ℚ)
  | none => JNum.undef

/-- Math.min over the spread column values; `undefined` values poison the
result to NaN.  The empty case (Math.min() is +Infinity) is unreachable:
metadata is only computed for a non-empty feature list. -/
def jsMinList (values : List JNum) : JNum :=
  match values with
  | [] => JNum.nan
  | v :: vs => vs.foldl JNum.min2 v

/-- Math.max over the spread column values, as for `jsMinList`. -/
def jsMaxList (values : List JNum) : JNum :=
  match values with
  | [] => JNum.nan
  | v :: vs => vs.foldl JNum.max2 v

/-- The `values.reduce((a, b) => a + b, 0)` sum with JS coercion. -/
def jsSumList (values : List JNum) : JNum := values.foldl JNum.add (JNum.num 0)

/-- Mean of the column values (`sum / values.length`). -/
def jsMeanList (values : List JNum) : JNum := (jsSumList values).divNat values.length

/-- The radicand computed by `calculateStd`: the mean of the squared
deviations from the mean.  The source returns `Math.sqrt` of this; a square
root is not rational, so the embedding records the radicand — the square
root is monotone, and no stated property mentions the standard deviation. -/
def jsVarianceList (values : List JNum) : JNum :=
  let mean := jsMeanList values
  let squareDiffs := values.map fun v =>
    match v, mean with
    | JNum.num x, JNum.num mu => JNum.num ((x - mu) ^ 2)
    | _, _ => JNum.nan
  (jsSumList squareDiffs).divNat values.length

/-- Per-column statistics (`stdSq` is the radicand of the source's `std`). -/
structure ColumnStats where
  min : JNum
  max : JNum
  mean : JNum
  stdSq : JNum
deriving DecidableEq

/-- Run-level metadata (`generateMetadata`).  The constant
`categoryMapping` / `severityMapping` fields of the source are the encoding
tables `categoryEncoding` / `severityEncoding` defined above. -/
structure MLMetadata where
  totalFeatures : Nat
  numericColumns : List String
  categoricalColumns : List String
  binaryColumns : List String
  statistics : List (String × ColumnStats)
deriving DecidableEq

/-- The preprocessor's `generateMetadata`: classify columns by inspecting the
first row only (every produced value is a number, so the `typeof` test never
yields a categorical column), then compute statistics per numeric column over
all rows.  The empty-rows early return is the empty object, modelled `none`. -/
def generateMetadata (features : List (List (String × Int))) : Option MLMetadata :=
  match features with
  | [] => none
  | sampleFeature :: _ =>
      let numericColumns :=
        (sampleFeature.filter fun kv => decide (¬(kv.2 = 0 ∨ kv.2 = 1))).map fun kv => kv.1
      let binaryColumns :=
        (sampleFeature.filter fun kv => decide (kv.2 = 0 ∨ kv.2 = 1)).map fun kv => kv.1
      let statistics := numericColumns.map fun column =>
        let values := features.map fun f => featureValue f column
        (column,
          { min := jsMinList values, max := jsMaxList values
            mean := jsMeanList values, stdSq := jsVarianceList values : ColumnStats })
      some { totalFeatures := features.length
             numericColumns := numericColumns
             categoricalColumns := []
             binaryColumns := binaryColumns
             statistics := statistics }

/-- Result shape of `prepareForML` (its non-array input guard cannot fire for
a typed list). -/
structure MLResult where
  features : List (List (String × Int))
  metadata : Option MLMetadata
deriving DecidableEq

/-- The preprocessor's `prepareForML`. -/
def prepareForML (threats : List Threat) : MLResult :=
  let features := threats.map featureRow
  { features := features, metadata := generateMetadata features }

/-!
Pattern catalog (source `utils/patterns.js`): the shipped
`SUSPICIOUS_PATTERNS` table and `validatePatterns`.
-/

/-- One shipped catalog entry.  The regex itself is not re-implemented (the
matching side of the pipeline is parameterised over an opaque line test);
severity, category, threshold and window are the fields the verified
properties inspect. -/
structure CatalogEntry where
  severity : String
  category : String
  threshold : Nat
  timeWindow : Int
deriving DecidableEq

/-- The shipped `SUSPICIOUS_PATTERNS`, in source order: auth failures,
credential failures, brute force, suspicious accounts, privilege escalation,
system access, network reconnaissance, malware. -/
def SUSPICIOUS_PATTERNS : List CatalogEntry :=
  [{ severity := "HIGH", category := "AUTH", threshold := 3, timeWindow := 300000 },
   { severity := "MEDIUM", category := "AUTH", threshold := 2, timeWindow := 300000 },
   { severity := "HIGH", category := "BRUTE_FORCE", threshold := 1, timeWindow := 300000 },
   { severity := "MEDIUM", category := "SUSPICIOUS_ACCOUNT", threshold := 2, timeWindow := 300000 },
   { severity := "HIGH", category := "PRIVILEGE_ESCALATION", threshold := 1, timeWindow := 300000 },
   { severity := "HIGH", category := "SYSTEM_ACCESS", threshold := 1, timeWindow := 300000 },
   { severity := "HIGH", category := "RECONNAISSANCE", threshold := 1, timeWindow := 300000 },
   { severity := "HIGH", category := "MALWARE", threshold := 1, timeWindow := 300000 }]

/-- A JavaScript value as inspected by `validatePatterns`: a regex object, a
string, or anything else. -/
inductive JSV where
  | regexp
  | str (s : String)
  | other
deriving DecidableEq

/-- The three fields of a pattern entry that `validatePatterns` inspects. -/
structure PatternFields where
  pattern : JSV
  severity : JSV
  category : JSV
deriving DecidableEq

/-- Typeof-string test on a `JSV`. -/
def isStringJSV : JSV → Bool
  | JSV.str _ => true
  | _ => false

/-- The `['HIGH', 'MEDIUM', 'LOW', 'INFO'].includes(p.severity)` test: an
array of strings can only contain a string value. -/
def severityIncluded : JSV → Bool
  | JSV.str s => decide (s ∈ ["HIGH", "MEDIUM", "LOW", "INFO"])
  | _ => false

/-- The catalog's `validatePatterns` (`patterns.every(...)`): instanceof
RegExp, string-typed severity and category, and severity drawn from the
four-value list.  A failure throws at module load. -/
def validatePatterns (patterns : List PatternFields) : Bool :=
  patterns.all fun p =>
    decide (p.pattern = JSV.regexp) && isStringJSV p.severity && isStringJSV p.category
      && severityIncluded p.severity

/-!
Pipeline orchestrator (`analyzeLogs` in `logAnalyzer.js`).  The pattern
regexes and the IPv4-extraction regex are opaque: the pipeline is
parameterised over the per-pattern line test and the extractor, and every
theorem below holds for all instantiations (the source fixes them to
`SUSPICIOUS_PATTERNS` regexes and the `\b\d...\b` IPv4 literal regex).
`now` is the single wall-clock value: every `new Date().toISOString()` /
`Date.now()` during one synchronous invocation is modelled by it.
-/

/-- A detection pattern as the pipeline consumes it: the opaque regex test
plus the metadata fields of the catalog entry. -/
structure SPattern where
  test : String → Bool
  severity : String
  category : String

/-- The pipeline's `extractAction`: substring checks in fixed priority. -/
def extractAction (logLine category : String) : String :=
  if strContains logLine "failed login" then "failed_login"
  else if strContains logLine "successful login" then "success_login"
  else if category = "RECONNAISSANCE" then "port_scan"
  else "unknown"

/-- The pipeline's `analyzeContext`: count, among the five lines before and
after, those containing the first 20 characters of the current line, and
collect them.  The `forEach` both increments `occurrences` and pushes the
line, so the count always equals the collected length. -/
def analyzeContext (line : String) (previousLines nextLines : List String) : Context :=
  let key := line.take 20
  let hits := (previousLines ++ nextLines).filter fun contextLine => strContains contextLine key
  { timeWindow := 300000, occurrences := (hits.length : Int), relatedEvents := hits }

/-- The body of the inner `SUSPICIOUS_PATTERNS.forEach` for one pattern and
one line: on a regex hit, track the activity when an IP was extracted (with
the wall-clock ISO timestamp), read the behavior signal from the updated log,
score, and append the assembled threat to the accumulator. -/
def processPattern (now : Int) (line : String) (index : Nat)
    (previousLines nextLines : List String) (ip : Option String)
    (acc : ActivityLog × List Threat) (p : SPattern) : ActivityLog × List Threat :=
  if p.test line then
    let action := extractAction line p.category
    let st1 :=
      if jsTruthyStr ip then
        trackActivity now acc.1 (match ip with | some s => s | none => "") action now
      else acc.1
    let context := analyzeContext line previousLines nextLines
    let behaviorAnalysis :=
      if jsTruthyStr ip then
        some (analyzePattern now st1 (match ip with | some s => s | none => ""))
      else none
    let threatScore :=
      calculateThreatScore { severity := p.severity, category := p.category, timestamp := now }
        (some context) behaviorAnalysis
    let threat : Threat :=
      { message := jsTrim line
        severity := p.severity
        category := p.category
        timestamp := now
        lineNumber := index + 1
        context := context
        sourceIP := ip
        behaviorAnalysis := behaviorAnalysis
        threatScore := threatScore
        threatLevel := getThreatLevel threatScore
        recommendedActions := getRecommendedActions threatScore p.category }
    (st1, acc.2 ++ [threat])
  else acc

/-- One line of the outer `lines.forEach`: compute the context slices and the
extracted IP, then run the inner pattern loop. -/
def processLine (patterns : List SPattern) (extractIPfn : String → Option String) (now : Int)
    (lines : List String) (st : ActivityLog) (index : Nat) (line : String) :
    ActivityLog × List Threat :=
  let start := index - 5
  let previousLines := (lines.drop start).take (index - start)
  let nextLines := (lines.drop (index + 1)).take 5
  let ip := extractIPfn line
  patterns.foldl (processPattern now line index previousLines nextLines ip) (st, [])

/-- The outer `lines.forEach` of `analyzeLogs`, over the enumerated lines,
threading the analyzer state and accumulating threats in order. -/
def analyzeLogsLoop (patterns : List SPattern) (extractIPfn : String → Option String)
    (now : Int) (lines : List String) :
    List (Nat × String) → ActivityLog → ActivityLog × List Threat
  | [], st => (st, [])
  | (index, line) :: rest, st =>
      let step := processLine patterns extractIPfn now lines st index line
      let restResult := analyzeLogsLoop patterns extractIPfn now lines rest step.1
      (restResult.1, step.2 ++ restResult.2)

/-- The `threats` field of the returned report: the collected list, or, when
it is empty, the one-element sentinel `[{ message: 'No threats detected.',
severity: 'INFO' }]` (an object carrying only those two keys). -/
inductive ThreatsField where
  | hits (threats : List Threat)
  | noThreatsSentinel
deriving DecidableEq

/-- The report's `summary` object. -/
structure AnalyzeSummary where
  totalThreats : Nat
  highSeverity : Nat
  criticalThreats : Nat
  averageThreatScore : Int
  categories : List String
  suspiciousIPs : List String
  correlationSummary : Option CorrelationSummary
  mlMetadata : Option MLMetadata
deriving DecidableEq

/-- The full report returned by `analyzeLogs`. -/
structure AnalyzeResult where
  threats : ThreatsField
  correlations : CorrelationResult
  mlFeatures : MLResult
  summary : AnalyzeSummary
deriving DecidableEq

/-- The pipeline's `analyzeLogs` (its non-string input guard cannot fire for
a typed string).  The behavior analyzer is the module-level instance: its
state enters as `st0` and the mutated state is read back by the
`suspiciousIPs` summary field. -/
def analyzeLogs (patterns : List SPattern) (extractIPfn : String → Option String)
    (now : Int) (st0 : ActivityLog) (logData : String) : AnalyzeResult :=
  let lines := jsSplitChar logData '\n'
  let scanned := analyzeLogsLoop patterns extractIPfn now lines lines.enum st0
  let stFinal := scanned.1
  let threats := scanned.2
  let correlationResults := correlateThreats threats
  let mlFeatures := prepareForML threats
  { threats := if threats.length = 0 then ThreatsField.noThreatsSentinel
               else ThreatsField.hits threats
    correlations := correlationResults
    mlFeatures := mlFeatures
    summary :=
      { totalThreats := threats.length
        highSeverity := (threats.filter fun t => decide (t.severity = "HIGH")).length
        criticalThreats := (threats.filter fun t => decide (t.threatLevel = "CRITICAL")).length
        averageThreatScore :=
          if threats.length = 0 then 0
          else jsRound (((threats.map fun t => t.threatScore).sum : ℚ) / (threats.length : ℚ))
        categories := dedupFirst (threats.map fun t => t.category)
        suspiciousIPs :=
          (stFinal.map fun p => p.1).filter fun ip =>
            decide ((analyzePattern now stFinal ip).riskScore > 70)
        correlationSummary := correlationResults.summary
        mlMetadata := mlFeatures.metadata } }

/-- The behavior-analyzer state after one `analyzeLogs` invocation (the
module-level `behaviorAnalyzer.activityLog` as left behind by the run). -/
def analyzeLogsFinalLog (patterns : List SPattern) (extractIPfn : String → Option String)
    (now : Int) (st0 : ActivityLog) (logData : String) : ActivityLog :=
  let lines := jsSplitChar logData '\n'
  (analyzeLogsLoop patterns extractIPfn now lines lines.enum st0).1

/-!
Statement helpers and concrete inputs used by the theorems, counterexamples
and witnesses below.
-/

/-- All positions mentioned by a list of groups, primaries and related alike,
with multiplicity. -/
def mentionedIdxs (groups : List CorrelatedGroup) : List Nat :=
  groups.flatMap fun g => g.primaryIdx :: g.relatedIdxs

/-- Position `j` holds a threat that is uncorrelated with the threat at
position `k` in both scan directions (vacuously true when either position is
out of range). -/
def uncorrelatedPair (threats : List Threat) (k j : Nat) : Bool :=
  match threats[j]?, threats[k]? with
  | some tj, some tk =>
      !(checkCorrelation tk tj).isCorrelated && !(checkCorrelation tj tk).isCorrelated
  | _, _ => true

/-- A minimal threat value for building concrete test inputs. -/
def mkThreat (category : String) (timestamp : Int) (sourceIP : Option String) : Threat :=
  { message := "", severity := "HIGH", category := category, timestamp := timestamp
    lineNumber := 1, context := { timeWindow := 300000, occurrences := 0, relatedEvents := [] }
    sourceIP := sourceIP, behaviorAnalysis := none, threatScore := 50, threatLevel := "LOW"
    recommendedActions := { immediate := false, actions := [] } }

/-- Two activities for one source, 500 ms apart. -/
def actsC1 : List Activity :=
  [{ action := "failed_login", timestamp := 0 }, { action := "failed_login", timestamp := 500 }]

/-- A context with exactly one occurrence and no related events. -/
def ctxC3 : Context := { timeWindow := 300000, occurrences := 1, relatedEvents := [] }

/-- A catalog entry with a well-formed regex, a category string and severity
CRITICAL. -/
def entryC2bad : PatternFields :=
  { pattern := JSV.regexp, severity := JSV.str "CRITICAL", category := JSV.str "AUTH" }

/-- A catalog entry with a well-formed regex, a category string and severity
HIGH. -/
def entryC2good : PatternFields :=
  { pattern := JSV.regexp, severity := JSV.str "HIGH", category := JSV.str "AUTH" }

/-- Two threats for the grouping pass: an XSS threat, then an INJECTION
threat far outside every time window, with no source IPs.  In the forward
direction (XSS first) no correlation holds, but INJECTION's rule lists XSS
as a related category, so the second threat's scan claims the earlier one. -/
def threatsC5 : List Threat :=
  [mkThreat "XSS" 0 none, mkThreat "INJECTION" 1000000000 none]

/-- The single group the grouping pass emits for `threatsC5`. -/
def groupC5 : CorrelatedGroup :=
  { primaryIdx := 1, relatedIdxs := [0], correlationType := [["categorical"]]
    riskLevel := "LOW" }

/-- A single threat, enough to make the correlation input non-empty. -/
def threatC7 : Threat := mkThreat "AUTH" 0 none

/-- Two threats of which only the first carries a source IP: the first
feature row has the ip-octet columns, the second lacks them. -/
def threatsC8 : List Threat :=
  [mkThreat "AUTH" 0 (some "203.0.113.9"), mkThreat "AUTH" 0 none]

/-- Two threats that both carry a source IP, so every column of the first
feature row is present in every row. -/
def threatsC8w : List Threat :=
  [mkThreat "AUTH" 0 (some "203.0.113.9"), mkThreat "AUTH" 0 (some "10.1.2.3")]

/-- The metadata of the `threatsC8w` run. -/
def mdC8w : MLMetadata :=
  ((prepareForML threatsC8w).metadata).getD
    { totalFeatures := 0, numericColumns := [], categoricalColumns := [], binaryColumns := []
      statistics := [] }

/-- The statistics of the `threatScore` column of the `threatsC8w` run. -/
def statsC8w : ColumnStats :=
  (lookupStr "threatScore" mdC8w.statistics).getD
    { min := JNum.nan, max := JNum.nan, mean := JNum.nan, stdSq := JNum.nan }

/-- Analyzer state after three failed-login track calls for one source whose
wall-clock times span 3,700,000 ms (more than one hour); the pruning inside
the last call drops the record at 0 and keeps the two later ones. -/
def stC9 : ActivityLog :=
  trackActivity 3700000
    (trackActivity 2000000
      (trackActivity 0 [] "9.9.9.9" "failed_login" 0)
      "9.9.9.9" "failed_login" 2000000)
    "9.9.9.9" "failed_login" 3700000

/-- Two threats with no correlation in either direction: categories without
rules and not in any related list, timestamps outside every window, no IPs. -/
def threatsC10 : List Threat :=
  [mkThreat "XSS" 0 none, mkThreat "OTHER" 1000000000 none]

/-- A pattern whose opaque regex matches every line. -/
def patC4 : SPattern := { test := fun _ => true, severity := "LOW", category := "X" }

/-- The threat list collected by a one-line pipeline run with `patC4`, a
constant IP extractor, wall clock 0 and an empty initial analyzer state. -/
def listC4 : List Threat :=
  (analyzeLogsLoop [patC4] (fun _ => some "1.2.3.4") 0 (jsSplitChar "a" '\n')
    ((jsSplitChar "a" '\n').enum) []).2

/-- The first (only) threat of `listC4`. -/
def threatC4 : Threat :=
  match listC4 with
  | t :: _ => t
  | [] => mkThreat "X" 0 none

/-- The activity record that the `listC4` run tracks. -/
def recC4 : Activity := { action := "unknown", timestamp := 0 }

/-!
Theorems.  Shared helper lemmas come first; each verified claim then gets
one theorem (with a witness when it has hypotheses, and a counterexample
where the original statement fails on the code).
-/

/-- Helper: the rapid-succession loop always computes `NaN < 1000`, which is
false, at every pair, so it returns false on every list. -/
theorem rapidLoop_false : ∀ l : List Activity, rapidLoop l = false := by
  intro l
  induction l with
  | nil => rfl
  | cons a tail ih =>
      cases tail with
      | nil => rfl
      | cons b r =>
          simp only [rapidLoop, recordAsDateGetTime, JNum.sub, JNum.ltInt, Bool.false_or]
          exact ih

/-- C1: the claim states that the sequence signal flags rapid succession
exactly when two consecutive records are within 1 second; in the code the
subtrahend is `new Date(activities[i-1])` applied to the record object (an
Invalid Date, NaN), so the comparison is always false and the flag is never
raised — in particular not on two consecutive records 500 ms apart. -/
theorem c1_rapidSuccession_never_flags :
    (∀ activities : List Activity, checkRapidSuccession activities = false)
      ∧ checkRapidSuccession actsC1 = false
      ∧ ((actsC1.get? 1).map (fun a => a.timestamp)).getD 0
          - ((actsC1.get? 0).map (fun a => a.timestamp)).getD 0 < 1000 := by
  refine ⟨fun activities => ?_, by decide, by decide⟩
  unfold checkRapidSuccession
  split
  · rfl
  · exact rapidLoop_false activities

/-- C3 counterexample: a context with exactly one occurrence and no related
events contributes 0, not the min(1×5,20) + min(0×3,15) = 5 the claim
computes (the source adds the occurrence bonus only above one occurrence). -/
theorem c3_counterexample :
    ¬(calculateContextScore (some ctxC3)
        = min ((1 : Int) * 5) 20 + min ((0 : Int) * 3) 15) := by decide

/-- C3 amended: the context contribution is min(occurrences×5, 20) only when
occurrences exceeds 1 (otherwise the occurrence term is 0), plus
min(relatedEventCount×3, 15); a context with exactly one occurrence
contributes 0 from the occurrence term. -/
theorem c3_amended_context_score : ∀ (w o : Int) (evs : List String),
    calculateContextScore (some { timeWindow := w, occurrences := o, relatedEvents := evs })
      = (if 1 < o then min (o * 5) 20 else 0) + min ((evs.length : Int) * 3) 15 := by
  intro w o evs
  show (if 1 < o then min (o * 5) 20 else 0)
      + (if 0 < evs.length then min ((evs.length : Int) * 3) 15 else 0) = _
  congr 1
  by_cases h : 0 < evs.length
  · rw [if_pos h]
  · rw [if_neg h, Nat.eq_zero_of_not_pos h]
    norm_num

/-- C6 counterexample: the shipped catalog contains a pattern (the
BRUTE_FORCE entry) whose category weight is not between 20 and 30. -/
theorem c6_counterexample :
    ∃ p ∈ SUSPICIOUS_PATTERNS,
      ¬(20 ≤ categoryWeights p.category ∧ categoryWeights p.category ≤ 30) := by decide

/-- C6 amended: for a shipped catalog hit, the category weight term is the
fixed per-category table value, between 20 and 30 inclusive, only for the
catalog categories present in the scorer's table (AUTH, RECONNAISSANCE,
MALWARE); the four catalog categories absent from the table (BRUTE_FORCE,
SUSPICIOUS_ACCOUNT, PRIVILEGE_ESCALATION, SYSTEM_ACCESS) get weight 0. -/
theorem c6_amended_category_weight : ∀ p ∈ SUSPICIOUS_PATTERNS,
    (p.category ∈ ["AUTH", "RECONNAISSANCE", "MALWARE"]
        ∧ 20 ≤ categoryWeights p.category ∧ categoryWeights p.category ≤ 30)
      ∨ (p.category ∈ ["BRUTE_FORCE", "SUSPICIOUS_ACCOUNT", "PRIVILEGE_ESCALATION", "SYSTEM_ACCESS"]
        ∧ categoryWeights p.category = 0) := by decide

/-- C6 witness: the first shipped catalog entry instantiates the amended
statement. -/
theorem c6_witness :
    (("AUTH" : String) ∈ ["AUTH", "RECONNAISSANCE", "MALWARE"]
        ∧ 20 ≤ categoryWeights "AUTH" ∧ categoryWeights "AUTH" ≤ 30)
      ∨ (("AUTH" : String) ∈ ["BRUTE_FORCE", "SUSPICIOUS_ACCOUNT", "PRIVILEGE_ESCALATION", "SYSTEM_ACCESS"]
        ∧ categoryWeights "AUTH" = 0) :=
  c6_amended_category_weight
    { severity := "HIGH", category := "AUTH", threshold := 3, timeWindow := 300000 } (by decide)

/-- C2 counterexample: an entry with a well-formed regex, a category string
and severity CRITICAL fails validation (the source's list has only the four
severities HIGH, MEDIUM, LOW, INFO). -/
theorem c2_counterexample : validatePatterns [entryC2bad] = false := by decide

/-- C2 amended: validate(patterns) is true iff every entry has a well-formed
regex, a category string, and a severity drawn from the four-value
enumeration HIGH, MEDIUM, LOW, INFO — CRITICAL is not accepted. -/
theorem c2_amended_validate : ∀ ps : List PatternFields,
    validatePatterns ps = true ↔
      ∀ p ∈ ps, p.pattern = JSV.regexp
        ∧ (∃ s, p.severity = JSV.str s ∧ s ∈ ["HIGH", "MEDIUM", "LOW", "INFO"])
        ∧ (∃ c, p.category = JSV.str c) := by
  intro ps
  unfold validatePatterns
  rw [List.all_eq_true]
  apply forall_congr'
  intro p
  apply imp_congr Iff.rfl
  obtain ⟨pat, sev, cat⟩ := p
  cases pat <;> cases sev <;> cases cat <;>
    simp [isStringJSV, severityIncluded]

/-- C2 witness: a HIGH entry with a regex and a category string validates. -/
theorem c2_witness : validatePatterns [entryC2good] = true :=
  (c2_amended_validate [entryC2good]).mpr (by
    intro p hp
    simp only [List.mem_singleton] at hp
    subst hp
    exact ⟨rfl, ⟨"HIGH", rfl, by decide⟩, ⟨"AUTH", rfl⟩⟩)

/-- C7 counterexample: on the empty threat list the correlation operation
returns the early object without a summary field. -/
theorem c7_counterexample : (correlateThreats []).summary = none := rfl

/-- C7 amended: for every non-empty threat list the correlation operation
returns all three fields — groups, patterns and a summary; only the empty
(or non-array) input takes the early return that lacks the summary. -/
theorem c7_amended_summary : ∀ threats : List Threat, threats ≠ [] →
    ((correlateThreats threats).summary).isSome = true := by
  intro ts h
  unfold correlateThreats
  rw [if_neg (fun hlen => h (List.length_eq_zero.mp hlen))]
  rfl

/-- C7 witness: a one-element threat list gets a summary. -/
theorem c7_witness : ((correlateThreats [threatC7]).summary).isSome = true :=
  c7_amended_summary [threatC7] (by decide)

/-- Helper: `Map.set` followed by `Map.get` at the same key yields the value
just stored. -/
theorem lookupStr_setStr_self {β : Type} (l : List (String × β)) (k : String) (v : β) :
    lookupStr k (setStr k v l) = some v := by
  induction l with
  | nil => simp [setStr, lookupStr]
  | cons p rest ih =>
      obtain ⟨k2, v2⟩ := p
      by_cases h : k = k2
      · simp [setStr, h, lookupStr]
      · simp [setStr, h, lookupStr, ih]

/-- Helper: `Map.set` leaves every other key unchanged. -/
theorem lookupStr_setStr_ne {β : Type} (l : List (String × β)) (k k2 : String) (v : β)
    (h : k2 ≠ k) : lookupStr k2 (setStr k v l) = lookupStr k2 l := by
  induction l with
  | nil => simp [setStr, lookupStr, h]
  | cons p rest ih =>
      obtain ⟨k3, v3⟩ := p
      by_cases h3 : k = k3
      · subst h3
        simp [setStr, lookupStr, h, ih]
      · by_cases h4 : k2 = k3
        · simp [setStr, lookupStr, h3, h4]
        · simp [setStr, lookupStr, h3, h4, ih]

/-- Helper: record list after `Map.set` at the same key. -/
theorem getActivities_setStr_self (log : ActivityLog) (ip : String) (l : List Activity) :
    getActivities (setStr ip l log) ip = l := by
  unfold getActivities
  rw [lookupStr_setStr_self]

/-- Helper: record list of another key after `Map.set`. -/
theorem getActivities_setStr_ne (log : ActivityLog) (ip ip2 : String) (l : List Activity)
    (h : ip2 ≠ ip) : getActivities (setStr ip l log) ip2 = getActivities log ip2 := by
  unfold getActivities
  rw [lookupStr_setStr_ne _ _ _ _ h]

/-- Helper: every record found after a track call was already stored before
it, or is the record the call appended (whose timestamp is the call's
`timestamp` argument). -/
theorem trackActivity_mem (now : Int) (log : ActivityLog) (ip action : String) (ts : Int)
    (ip2 : String) (rec : Activity)
    (h : rec ∈ getActivities (trackActivity now log ip action ts) ip2) :
    rec ∈ getActivities log ip2 ∨ rec.timestamp = ts := by
  simp only [trackActivity, cleanup] at h
  by_cases hip : ip2 = ip
  · subst hip
    rw [getActivities_setStr_self] at h
    rw [getActivities_setStr_self] at h
    have h2 := (List.mem_filter.mp h).1
    rcases List.mem_append.mp h2 with h3 | h3
    · exact Or.inl h3
    · right
      simp only [List.mem_singleton] at h3
      rw [h3]
  · rw [getActivities_setStr_ne _ _ _ _ hip, getActivities_setStr_ne _ _ _ _ hip] at h
    exact Or.inl h

/-- C9 counterexample: after three track calls spanning more than one hour,
an analyze call at wall clock 7,400,000 still reflects stored records all of
which are more than one hour older than the analyze call's wall clock — its
risk score is 2 (the volume term of the two remaining records), not the 0 an
analyze over no in-window events would give. -/
theorem c9_counterexample :
    ((getActivities stC9 "9.9.9.9").all fun rec => decide (7400000 - rec.timestamp > 3600000)) = true
      ∧ (getActivities stC9 "9.9.9.9").length = 2
      ∧ (analyzePattern 7400000 stC9 "9.9.9.9").riskScore = 2
      ∧ (analyzePattern 7400000 ([] : ActivityLog) "9.9.9.9").riskScore = 0 := by decide

/-- C9 amended: pruning happens at track time, not at analyze time — after
any track call, every record stored for the tracked source is strictly
newer than one hour before that track call's wall clock; `analyze` itself
prunes nothing, so records older than one hour relative to a later analyze
call's wall clock are excluded only as of the most recent track call for
that source. -/
theorem c9_amended_track_prunes : ∀ (now : Int) (log : ActivityLog) (ip action : String)
    (ts : Int), ∀ rec ∈ getActivities (trackActivity now log ip action ts) ip,
      rec.timestamp > now - 3600000 := by
  intro now log ip action ts rec h
  simp only [trackActivity, cleanup] at h
  rw [getActivities_setStr_self] at h
  have h2 := of_decide_eq_true (List.mem_filter.mp h).2
  omega

/-- C9 witness: a record tracked at wall clock 0 with timestamp -1 is kept
and satisfies the pruning bound. -/
theorem c9_witness :
    ({ action := "x", timestamp := -1 } : Activity) ∈
        getActivities (trackActivity 0 [] "a" "x" (-1)) "a"
      ∧ ({ action := "x", timestamp := -1 } : Activity).timestamp > 0 - 3600000 :=
  ⟨by decide,
   c9_amended_track_prunes 0 [] "a" "x" (-1) { action := "x", timestamp := -1 } (by decide)⟩

/-- Helper: unfolding `mentionedIdxs` over a cons. -/
theorem mentionedIdxs_cons (g : CorrelatedGroup) (gs : List CorrelatedGroup) :
    mentionedIdxs (g :: gs) = (g.primaryIdx :: g.relatedIdxs) ++ mentionedIdxs gs := rfl

/-- Helper: what membership in the inner scan's result gives: a position
other than the primary, not yet claimed, holding the threat at that position
of the input, and correlated to the primary threat. -/
theorem relatedPairs_mem {threats : List Threat} {processed : List Nat} {i : Nat} {t : Threat}
    {ju : Nat × Threat} (h : ju ∈ relatedPairs threats processed i t) :
    ju.1 ≠ i ∧ ju.1 ∉ processed ∧ threats[ju.1]? = some ju.2
      ∧ (checkCorrelation t ju.2).isCorrelated = true := by
  unfold relatedPairs at h
  have h2 := List.mem_filter.mp h
  have henum := List.mem_enum_iff_getElem?.mp h2.1
  have hb := h2.2
  simp only [Bool.and_eq_true, decide_eq_true_eq] at hb
  exact ⟨hb.1.1, hb.1.2, henum, hb.2⟩

/-- Helper: the positions of the inner scan's result are pairwise distinct
(they are a sub-sequence of the enumeration's positions). -/
theorem relatedPairs_fst_nodup (threats : List Threat) (processed : List Nat) (i : Nat)
    (t : Threat) : ((relatedPairs threats processed i t).map (fun ju => ju.1)).Nodup := by
  have hbig : (threats.enum.map Prod.fst).Nodup := by
    rw [List.enum_map_fst]
    exact List.nodup_range _
  exact hbig.sublist ((List.filter_sublist _).map Prod.fst)

/-- Helper invariant of the grouping loop: the positions mentioned by the
emitted groups are pairwise distinct, and none of them was already claimed
when the loop started. -/
theorem findAux_nodup (threats : List Threat) :
    ∀ (rem : List (Nat × Threat)) (processed : List Nat),
      (mentionedIdxs (findAux threats rem processed)).Nodup
        ∧ ∀ k ∈ mentionedIdxs (findAux threats rem processed), k ∉ processed := by
  intro rem
  induction rem with
  | nil =>
      intro processed
      exact ⟨List.Pairwise.nil, by intro k hk; simp [findAux, mentionedIdxs] at hk⟩
  | cons p rest ih =>
      obtain ⟨i, t⟩ := p
      intro processed
      by_cases hp : i ∈ processed
      · simp only [findAux, if_pos hp]
        exact ih processed
      · by_cases he : (relatedPairs threats processed i t).isEmpty
        · simp only [findAux, if_neg hp, if_pos he]
          exact ih processed
        · simp only [findAux, if_neg hp, if_neg he]
          have ihrec := ih (i :: (relatedPairs threats processed i t).map (fun ju => ju.1)
            ++ processed)
          have hnotin : i ∉ (relatedPairs threats processed i t).map (fun ju => ju.1) := by
            intro hmem
            obtain ⟨ju, hju, hjueq⟩ := List.mem_map.mp hmem
            exact (relatedPairs_mem hju).1 hjueq
          constructor
          · rw [mentionedIdxs_cons]
            refine List.nodup_append.mpr ⟨?_, ihrec.1, ?_⟩
            · exact List.nodup_cons.mpr ⟨hnotin, relatedPairs_fst_nodup threats processed i t⟩
            · intro a ha hmem
              have hnp := ihrec.2 a hmem
              rcases List.mem_cons.mp ha with ha1 | ha1
              · exact hnp (by rw [ha1]; exact List.mem_cons_self _ _)
              · exact hnp (List.mem_cons_of_mem _ (List.mem_append_left _ ha1))
          · intro k hk
            rw [mentionedIdxs_cons] at hk
            rcases List.mem_append.mp hk with hk1 | hk1
            · rcases List.mem_cons.mp hk1 with hk2 | hk2
              · rw [hk2]; exact hp
              · obtain ⟨ju, hju, hjueq⟩ := List.mem_map.mp hk2
                rw [← hjueq]
                exact (relatedPairs_mem hju).2.1
            · intro hkp
              exact ihrec.2 k hk1 (List.mem_cons_of_mem _ (List.mem_append_right _ hkp))

/-- Helper invariant of the grouping loop: every related position of an
emitted group differs from the group's primary position and is in range. -/
theorem findAux_related (threats : List Threat) :
    ∀ (rem : List (Nat × Threat)) (processed : List Nat),
      ∀ g ∈ findAux threats rem processed, ∀ j ∈ g.relatedIdxs,
        j ≠ g.primaryIdx ∧ j < threats.length := by
  intro rem
  induction rem with
  | nil => intro processed g hg; simp [findAux] at hg
  | cons p rest ih =>
      obtain ⟨i, t⟩ := p
      intro processed g hg
      by_cases hp : i ∈ processed
      · simp only [findAux, if_pos hp] at hg
        exact ih processed g hg
      · by_cases he : (relatedPairs threats processed i t).isEmpty
        · simp only [findAux, if_neg hp, if_pos he] at hg
          exact ih processed g hg
        · simp only [findAux, if_neg hp, if_neg he, List.mem_cons] at hg
          rcases hg with hg | hg
          · subst hg
            intro j hj
            simp only [List.mem_map] at hj
            obtain ⟨ju, hju, hjueq⟩ := hj
            have hm := relatedPairs_mem hju
            refine ⟨by rw [← hjueq]; exact hm.1, ?_⟩
            rw [← hjueq]
            exact (List.getElem?_eq_some.mp hm.2.2.1).1
          · exact ih _ g hg

/-- Helper invariant of the grouping loop: a position whose threat is
uncorrelated with every other position in both directions is never
mentioned, as long as the remaining enumeration is consistent with the
input list. -/
theorem findAux_not_mentioned (threats : List Threat) (k : Nat)
    (hk : ∀ j, j < threats.length → j ≠ k → uncorrelatedPair threats k j = true) :
    ∀ (rem : List (Nat × Threat)) (processed : List Nat),
      (∀ q ∈ rem, threats[q.1]? = some q.2) →
      k ∉ mentionedIdxs (findAux threats rem processed) := by
  intro rem
  induction rem with
  | nil => intro processed _; simp [findAux, mentionedIdxs]
  | cons p rest ih =>
      obtain ⟨i, t⟩ := p
      intro processed hrem
      have hrest : ∀ q ∈ rest, threats[q.1]? = some q.2 := fun q hq =>
        hrem q (List.mem_cons_of_mem _ hq)
      have hit : threats[i]? = some t := hrem (i, t) (List.mem_cons_self _ _)
      by_cases hp : i ∈ processed
      · simp only [findAux, if_pos hp]
        exact ih _ hrest
      · by_cases he : (relatedPairs threats processed i t).isEmpty
        · simp only [findAux, if_neg hp, if_pos he]
          exact ih _ hrest
        · simp only [findAux, if_neg hp, if_neg he]
          rw [mentionedIdxs_cons]
          intro hmem
          rcases List.mem_append.mp hmem with hmem1 | hmem1
          · rcases List.mem_cons.mp hmem1 with hk1 | hk1
            · -- k is the primary: but then some pair correlates with it
              have hk2 : k = i := hk1
              have hne : relatedPairs threats processed i t ≠ [] := by
                intro h0
                rw [h0] at he
                exact he rfl
              obtain ⟨ju, hju⟩ := List.exists_mem_of_ne_nil _ hne
              obtain ⟨hju1, _, hju3, hju4⟩ := relatedPairs_mem hju
              have hjlt : ju.1 < threats.length := (List.getElem?_eq_some.mp hju3).1
              have hneq : ju.1 ≠ k := by rw [hk2]; exact hju1
              have hu := hk ju.1 hjlt hneq
              unfold uncorrelatedPair at hu
              rw [← hk2] at hit
              simp only [hju3, hit, Bool.and_eq_true, Bool.not_eq_true'] at hu
              rw [hu.1] at hju4
              exact absurd hju4 Bool.false_ne_true
            · -- k is a related position: the primary correlates with it
              obtain ⟨ju, hju, hjueq⟩ := List.mem_map.mp hk1
              obtain ⟨hju1, _, hju3, hju4⟩ := relatedPairs_mem hju
              rw [hjueq] at hju3
              have hilt : i < threats.length := (List.getElem?_eq_some.mp hit).1
              have hneq : i ≠ k := fun hik => hju1 (by rw [hjueq, hik])
              have hu := hk i hilt hneq
              unfold uncorrelatedPair at hu
              simp only [hit, hju3, Bool.and_eq_true, Bool.not_eq_true'] at hu
              rw [hu.2] at hju4
              exact absurd hju4 Bool.false_ne_true
          · exact ih _ hrest hmem1

/-- C5 counterexample: on `threatsC5` the grouping pass emits a group whose
related threat is strictly earlier than the primary in input order — the
scan considers all not-yet-claimed threats, not only later ones. -/
theorem c5_counterexample :
    ∃ g ∈ findCorrelatedEvents threatsC5, ∃ j ∈ g.relatedIdxs, j < g.primaryIdx := by decide

/-- C5 amended: the related threats attached to a group are drawn from the
not-yet-claimed threats at any other position of the input — each related
position differs from the primary and is in range, but may lie earlier as
well as later in the input order. -/
theorem c5_amended_related_positions : ∀ (threats : List Threat),
    ∀ g ∈ findCorrelatedEvents threats, ∀ j ∈ g.relatedIdxs,
      j ≠ g.primaryIdx ∧ j < threats.length :=
  fun threats => findAux_related threats threats.enum []

/-- C5 witness: the group emitted for `threatsC5` instantiates the amended
statement at related position 0. -/
theorem c5_witness : (0 ≠ groupC5.primaryIdx ∧ 0 < threatsC5.length) :=
  c5_amended_related_positions threatsC5 groupC5 (by decide) 0 (by decide)

/-- C10: each position of the input appears in at most one correlation group
(the concatenation of all primary and related positions has no duplicate),
and a threat uncorrelated with every other threat in both scan directions
appears in no group at all. -/
theorem c10_at_most_one_group : ∀ (threats : List Threat) (k : Nat),
    (mentionedIdxs (findCorrelatedEvents threats)).Nodup
      ∧ ((∀ j, j < threats.length → j ≠ k → uncorrelatedPair threats k j = true) →
          k ∉ mentionedIdxs (findCorrelatedEvents threats)) := by
  intro threats k
  refine ⟨(findAux_nodup threats threats.enum []).1, fun hk => ?_⟩
  exact findAux_not_mentioned threats k hk threats.enum []
    (fun q hq => List.mem_enum_iff_getElem?.mp hq)

/-- C10 witness: on the two-threat uncorrelated input, the mention list is
duplicate-free and position 0 is mentioned nowhere. -/
theorem c10_witness :
    (mentionedIdxs (findCorrelatedEvents threatsC10)).Nodup
      ∧ 0 ∉ mentionedIdxs (findCorrelatedEvents threatsC10) :=
  ⟨(c10_at_most_one_group threatsC10 0).1, (c10_at_most_one_group threatsC10 0).2 (by decide)⟩

/-- Helper: a successful association lookup exhibits a member. -/
theorem lookupStr_mem {β : Type} : ∀ (l : List (String × β)) (k : String) (v : β),
    lookupStr k l = some v → (k, v) ∈ l := by
  intro l
  induction l with
  | nil => intro k v h; exact absurd h (by simp [lookupStr])
  | cons p rest ih =>
      intro k v h
      obtain ⟨k2, v2⟩ := p
      simp only [lookupStr] at h
      split at h
      · obtain rfl := Option.some.inj h
        rename_i hk
        rw [hk]
        exact List.mem_cons_self _ _
      · exact List.mem_cons_of_mem _ (ih k v h)

/-- Helper: an option known to be some equals `some` of its `getD`. -/
theorem option_getD_of_isSome {α : Type} (o : Option α) (d : α) (h : o.isSome = true) :
    o = some (o.getD d) := by
  cases o with
  | none => exact absurd h (by simp)
  | some v => rfl

/-- Helper: a list of JS numbers that are all actual numbers is the image of
a list of rationals. -/
theorem exists_map_num : ∀ (values : List JNum),
    (∀ v ∈ values, ∃ q : ℚ, v = JNum.num q) → ∃ qs : List ℚ, values = qs.map JNum.num := by
  intro values
  induction values with
  | nil => intro _; exact ⟨[], rfl⟩
  | cons v vs ih =>
      intro h
      obtain ⟨q, hq⟩ := h v (List.mem_cons_self _ _)
      obtain ⟨qs, hqs⟩ := ih (fun w hw => h w (List.mem_cons_of_mem _ hw))
      exact ⟨q :: qs, by rw [hq, hqs]; rfl⟩

/-- Helper: the NaN-propagating pairwise minimum agrees with the rational
minimum on number lists. -/
theorem foldl_min2_map : ∀ (l : List ℚ) (a : ℚ),
    (l.map JNum.num).foldl JNum.min2 (JNum.num a) = JNum.num (l.foldl min a) := by
  intro l
  induction l with
  | nil => intro a; rfl
  | cons b l ih => intro a; simp only [List.map_cons, List.foldl_cons, JNum.min2]; exact ih _

/-- Helper: the NaN-propagating pairwise maximum agrees with the rational
maximum on number lists. -/
theorem foldl_max2_map : ∀ (l : List ℚ) (a : ℚ),
    (l.map JNum.num).foldl JNum.max2 (JNum.num a) = JNum.num (l.foldl max a) := by
  intro l
  induction l with
  | nil => intro a; rfl
  | cons b l ih => intro a; simp only [List.map_cons, List.foldl_cons, JNum.max2]; exact ih _

/-- Helper: the NaN-propagating sum agrees with the rational sum on number
lists. -/
theorem foldl_add_map : ∀ (l : List ℚ) (a : ℚ),
    (l.map JNum.num).foldl JNum.add (JNum.num a) = JNum.num (a + l.sum) := by
  intro l
  induction l with
  | nil => intro a; simp
  | cons b l ih =>
      intro a
      simp only [List.map_cons, List.foldl_cons, JNum.add, List.sum_cons, ih, add_assoc]

/-- Helper: a min-fold never exceeds its initial value. -/
theorem foldl_min_le_init : ∀ (l : List ℚ) (a : ℚ), l.foldl min a ≤ a := by
  intro l
  induction l with
  | nil => intro a; exact le_refl a
  | cons b l ih => intro a; exact le_trans (ih (min a b)) (min_le_left a b)

/-- Helper: a max-fold never falls below its initial value. -/
theorem foldl_max_ge_init : ∀ (l : List ℚ) (a : ℚ), a ≤ l.foldl max a := by
  intro l
  induction l with
  | nil => intro a; exact le_refl a
  | cons b l ih => intro a; exact le_trans (le_max_left a b) (ih (max a b))

/-- Helper: the min-fold times the count is at most the total. -/
theorem foldl_min_mul : ∀ (l : List ℚ) (a : ℚ),
    (l.foldl min a) * ((l.length : ℚ) + 1) ≤ a + l.sum := by
  intro l
  induction l with
  | nil => intro a; simp
  | cons b l ih =>
      intro a
      have h1 := ih (min a b)
      have h2 : l.foldl min (min a b) ≤ a :=
        le_trans (foldl_min_le_init l (min a b)) (min_le_left a b)
      have h3 : min a b ≤ b := min_le_right a b
      simp only [List.foldl_cons, List.sum_cons, List.length_cons]
      push_cast
      have hexp : (l.foldl min (min a b)) * ((l.length : ℚ) + 1 + 1)
          = (l.foldl min (min a b)) * ((l.length : ℚ) + 1) + l.foldl min (min a b) := by ring
      rw [hexp]
      linarith [h1, h2, h3]

/-- Helper: the max-fold times the count is at least the total. -/
theorem foldl_max_mul : ∀ (l : List ℚ) (a : ℚ),
    a + l.sum ≤ (l.foldl max a) * ((l.length : ℚ) + 1) := by
  intro l
  induction l with
  | nil => intro a; simp
  | cons b l ih =>
      intro a
      have h1 := ih (max a b)
      have h2 : a ≤ l.foldl max (max a b) :=
        le_trans (le_max_left a b) (foldl_max_ge_init l (max a b))
      have h3 : b ≤ max a b := le_max_right a b
      simp only [List.foldl_cons, List.sum_cons, List.length_cons]
      push_cast
      have hexp : (l.foldl max (max a b)) * ((l.length : ℚ) + 1 + 1)
          = (l.foldl max (max a b)) * ((l.length : ℚ) + 1) + l.foldl max (max a b) := by ring
      rw [hexp]
      linarith [h1, h2, h3]

/-- Helper: over a non-empty column whose every value is an actual number,
the computed statistics satisfy min ≤ mean and mean ≤ max. -/
theorem jsStats_min_le_mean_le_max (values : List JNum) (hne : values ≠ [])
    (h : ∀ v ∈ values, ∃ q : ℚ, v = JNum.num q) :
    (jsMinList values).leb (jsMeanList values) = true
      ∧ (jsMeanList values).leb (jsMaxList values) = true := by
  obtain ⟨qs, rfl⟩ := exists_map_num values h
  cases qs with
  | nil => exact absurd rfl hne
  | cons q qtl =>
      have hmin : jsMinList ((q :: qtl).map JNum.num) = JNum.num (qtl.foldl min q) := by
        simp only [List.map_cons, jsMinList]
        exact foldl_min2_map qtl q
      have hmax : jsMaxList ((q :: qtl).map JNum.num) = JNum.num (qtl.foldl max q) := by
        simp only [List.map_cons, jsMaxList]
        exact foldl_max2_map qtl q
      have hsum : jsSumList ((q :: qtl).map JNum.num) = JNum.num (q + qtl.sum) := by
        simp only [jsSumList, List.map_cons, List.foldl_cons, JNum.add, zero_add]
        rw [foldl_add_map]
      have hmean : jsMeanList ((q :: qtl).map JNum.num)
          = JNum.num ((q + qtl.sum) / ((qtl.length : ℚ) + 1)) := by
        simp only [jsMeanList, hsum, JNum.divNat, List.length_map, List.length_cons]
        norm_num
      have hpos : (0 : ℚ) < (qtl.length : ℚ) + 1 := by positivity
      constructor
      · rw [hmin, hmean]
        simp only [JNum.leb, decide_eq_true_eq]
        rw [le_div_iff₀ hpos]
        exact foldl_min_mul qtl q
      · rw [hmean, hmax]
        simp only [JNum.leb, decide_eq_true_eq]
        rw [div_le_iff₀ hpos]
        exact foldl_max_mul qtl q

/-- C8 counterexample: on a run where the first threat has a source IP and
the second does not, the first row's `ipFirstOctet` column is classified
numeric, but the second row lacks the key, so the column statistics are NaN
and min ≤ mean fails (while the features array still has one row per
threat). -/
theorem c8_counterexample :
    (prepareForML threatsC8).features.length = 2
      ∧ ((prepareForML threatsC8).metadata.map fun md => md.numericColumns)
        = some ["dayOfWeek", "ipFirstOctet", "severityEncoded", "threatScore"]
      ∧ (((prepareForML threatsC8).metadata.bind fun md =>
          lookupStr "ipFirstOctet" md.statistics).map fun s => s.min.leb s.mean)
        = some false := by decide

/-- C8 amended: the features array always has exactly one row per threat;
and for every numeric column every one of whose values is present in every
row (in particular for any run where all threats carry the same optional
feature groups), the computed statistics satisfy min ≤ mean ≤ max.  When a
row lacks the column (mixed source-IP or behavior presence), the statistics
are NaN and the comparisons fail, as the counterexample shows. -/
theorem c8_amended_features_and_stats : ∀ threats : List Threat,
    (prepareForML threats).features.length = threats.length
      ∧ ∀ md, (prepareForML threats).metadata = some md →
          ∀ col stats, (col, stats) ∈ md.statistics →
            (∀ f ∈ (prepareForML threats).features, (lookupStr col f).isSome = true) →
            stats.min.leb stats.mean = true ∧ stats.mean.leb stats.max = true := by
  intro threats
  refine ⟨by simp [prepareForML], ?_⟩
  intro md hmd col stats hmem hall
  have hmd2 : generateMetadata (threats.map featureRow) = some md := hmd
  have hall2 : ∀ f ∈ threats.map featureRow, (lookupStr col f).isSome = true := hall
  cases hfeat : threats.map featureRow with
  | nil =>
      rw [hfeat] at hmd2
      simp [generateMetadata] at hmd2
  | cons sample restF =>
      rw [hfeat] at hmd2 hall2
      simp only [generateMetadata, Option.some.injEq] at hmd2
      subst hmd2
      simp only [List.mem_map] at hmem
      obtain ⟨column, hcolmem, heq⟩ := hmem
      injection heq with hc hs
      subst hc
      subst hs
      have hnum : ∀ v ∈ (sample :: restF).map (fun f => featureValue f column),
          ∃ q : ℚ, v = JNum.num q := by
        intro v hv
        simp only [List.mem_map] at hv
        obtain ⟨f, hf, hveq⟩ := hv
        have hsome := hall2 f hf
        cases hlk : lookupStr column f with
        | none => rw [hlk] at hsome; exact absurd hsome (by simp)
        | some v2 =>
            simp only [featureValue, hlk] at hveq
            exact ⟨v2, hveq.symm⟩
      exact jsStats_min_le_mean_le_max _ (by simp) hnum

/-- C8 witness: on a run where both threats carry a source IP, the
`threatScore` column is numeric and present in every row, and its statistics
satisfy both inequalities. -/
theorem c8_witness :
    statsC8w.min.leb statsC8w.mean = true ∧ statsC8w.mean.leb statsC8w.max = true :=
  (c8_amended_features_and_stats threatsC8w).2 mdC8w
    (option_getD_of_isSome ((prepareForML threatsC8w).metadata)
      { totalFeatures := 0, numericColumns := [], categoricalColumns := [], binaryColumns := []
        statistics := [] } (by decide))
    "threatScore" statsC8w
    (lookupStr_mem _ _ _
      (option_getD_of_isSome (lookupStr "threatScore" mdC8w.statistics)
        { min := JNum.nan, max := JNum.nan, mean := JNum.nan, stdSq := JNum.nan }
        (by decide)).symm)
    (by decide)

/-- Helper: one pattern step only appends threats stamped with the wall
clock. -/
theorem processPattern_threats (now : Int) (line : String) (index : Nat)
    (previousLines nextLines : List String) (ip : Option String)
    (acc : ActivityLog × List Threat) (p : SPattern)
    (h : ∀ t ∈ acc.2, t.timestamp = now) :
    ∀ t ∈ (processPattern now line index previousLines nextLines ip acc p).2,
      t.timestamp = now := by
  intro t ht
  by_cases htest : p.test line
  · simp only [processPattern, if_pos htest] at ht
    rcases List.mem_append.mp ht with h1 | h1
    · exact h t h1
    · simp only [List.mem_singleton] at h1
      rw [h1]
  · simp only [processPattern, if_neg htest] at ht
    exact h t ht

/-- Helper: one pattern step only adds tracker records stamped with the wall
clock. -/
theorem processPattern_state (now : Int) (line : String) (index : Nat)
    (previousLines nextLines : List String) (ip : Option String)
    (acc : ActivityLog × List Threat) (p : SPattern) (ip2 : String) (rec : Activity)
    (h : rec ∈ getActivities (processPattern now line index previousLines nextLines ip acc p).1 ip2) :
    rec ∈ getActivities acc.1 ip2 ∨ rec.timestamp = now := by
  by_cases htest : p.test line
  · simp only [processPattern, if_pos htest] at h
    split at h
    · exact trackActivity_mem _ _ _ _ _ _ _ h
    · exact Or.inl h
  · simp only [processPattern, if_neg htest] at h
    exact Or.inl h

/-- Helper: the inner pattern fold only appends wall-clock-stamped threats. -/
theorem foldl_processPattern_threats (now : Int) (line : String) (index : Nat)
    (previousLines nextLines : List String) (ip : Option String) :
    ∀ (ps : List SPattern) (acc : ActivityLog × List Threat),
      (∀ t ∈ acc.2, t.timestamp = now) →
      ∀ t ∈ (ps.foldl (processPattern now line index previousLines nextLines ip) acc).2,
        t.timestamp = now := by
  intro ps
  induction ps with
  | nil => intro acc h; exact h
  | cons p ps ih =>
      intro acc h
      exact ih _ (processPattern_threats now line index previousLines nextLines ip acc p h)

/-- Helper: the inner pattern fold only adds wall-clock-stamped records. -/
theorem foldl_processPattern_state (now : Int) (line : String) (index : Nat)
    (previousLines nextLines : List String) (ip : Option String) :
    ∀ (ps : List SPattern) (acc : ActivityLog × List Threat) (ip2 : String) (rec : Activity),
      rec ∈ getActivities
        (ps.foldl (processPattern now line index previousLines nextLines ip) acc).1 ip2 →
      rec ∈ getActivities acc.1 ip2 ∨ rec.timestamp = now := by
  intro ps
  induction ps with
  | nil => intro acc ip2 rec h; exact Or.inl h
  | cons p ps ih =>
      intro acc ip2 rec h
      rcases ih _ ip2 rec h with h1 | h1
      · exact processPattern_state now line index previousLines nextLines ip acc p ip2 rec h1
      · exact Or.inr h1

/-- Helper: every threat a line produces is wall-clock-stamped. -/
theorem processLine_threats (patterns : List SPattern) (extractIPfn : String → Option String)
    (now : Int) (lines : List String) (st : ActivityLog) (index : Nat) (line : String) :
    ∀ t ∈ (processLine patterns extractIPfn now lines st index line).2, t.timestamp = now := by
  intro t ht
  simp only [processLine] at ht
  exact foldl_processPattern_threats now line index _ _ _ patterns (st, []) (by simp) t ht

/-- Helper: every record a line adds to the tracker is wall-clock-stamped. -/
theorem processLine_state (patterns : List SPattern) (extractIPfn : String → Option String)
    (now : Int) (lines : List String) (st : ActivityLog) (index : Nat) (line : String)
    (ip2 : String) (rec : Activity)
    (h : rec ∈ getActivities (processLine patterns extractIPfn now lines st index line).1 ip2) :
    rec ∈ getActivities st ip2 ∨ rec.timestamp = now := by
  simp only [processLine] at h
  exact foldl_processPattern_state now line index _ _ _ patterns (st, []) ip2 rec h

/-- Helper: every threat the line loop collects is wall-clock-stamped. -/
theorem analyzeLogsLoop_threats (patterns : List SPattern)
    (extractIPfn : String → Option String) (now : Int) (lines : List String) :
    ∀ (rem : List (Nat × String)) (st : ActivityLog) (t : Threat),
      t ∈ (analyzeLogsLoop patterns extractIPfn now lines rem st).2 → t.timestamp = now := by
  intro rem
  induction rem with
  | nil => intro st t ht; exact absurd ht (by simp [analyzeLogsLoop])
  | cons q rest ih =>
      obtain ⟨index, line⟩ := q
      intro st t ht
      simp only [analyzeLogsLoop] at ht
      rcases List.mem_append.mp ht with h1 | h1
      · exact processLine_threats patterns extractIPfn now lines st index line t h1
      · exact ih _ t h1

/-- Helper: every record the line loop leaves in the tracker was there
initially or is wall-clock-stamped. -/
theorem analyzeLogsLoop_state (patterns : List SPattern)
    (extractIPfn : String → Option String) (now : Int) (lines : List String) :
    ∀ (rem : List (Nat × String)) (st : ActivityLog) (ip2 : String) (rec : Activity),
      rec ∈ getActivities (analyzeLogsLoop patterns extractIPfn now lines rem st).1 ip2 →
      rec ∈ getActivities st ip2 ∨ rec.timestamp = now := by
  intro rem
  induction rem with
  | nil => intro st ip2 rec h; exact Or.inl h
  | cons q rest ih =>
      obtain ⟨index, line⟩ := q
      intro st ip2 rec h
      simp only [analyzeLogsLoop] at h
      rcases ih _ ip2 rec h with h1 | h1
      · exact processLine_state patterns extractIPfn now lines st index line ip2 rec h1
      · exact Or.inr h1

/-- Helper: reading the report's threats field as a hit list recovers the
collected list. -/
theorem threatsField_eq_hits (threats l : List Threat)
    (h : (if threats.length = 0 then ThreatsField.noThreatsSentinel
          else ThreatsField.hits threats) = ThreatsField.hits l) : threats = l := by
  split at h
  · exact absurd h (by simp)
  · injection h

/-- C4: the pipeline stamps every produced threat, and every record it adds
to the behavior tracker, with the invocation's wall clock `now` — never with
any date text parsed from the log line (no such parsing exists; the theorem
holds for every pattern set and every IP extractor, so two inputs differing
only in embedded timestamp text yield identical timestamp fields for a fixed
`now`). -/
theorem c4_timestamps_are_wall_clock :
    ∀ (patterns : List SPattern) (extractIPfn : String → Option String) (now : Int)
      (st0 : ActivityLog) (logData : String) (l : List Threat) (t : Threat),
      ((analyzeLogs patterns extractIPfn now st0 logData).threats = ThreatsField.hits l →
          t ∈ l → t.timestamp = now)
        ∧ ∀ (ip : String) (rec : Activity),
            rec ∈ getActivities (analyzeLogsFinalLog patterns extractIPfn now st0 logData) ip →
            rec ∈ getActivities st0 ip ∨ rec.timestamp = now := by
  intro patterns extractIPfn now st0 logData l t
  constructor
  · intro hth hmem
    have h3 := threatsField_eq_hits _ _ hth
    rw [← h3] at hmem
    exact analyzeLogsLoop_threats patterns extractIPfn now _ _ _ t hmem
  · intro ip rec h
    exact analyzeLogsLoop_state patterns extractIPfn now _ _ _ ip rec h

/-- C4 witness: a one-line run at wall clock 0 produces a threat stamped 0
and tracks a record stamped 0. -/
theorem c4_witness :
    threatC4.timestamp = 0
      ∧ (recC4 ∈ getActivities ([] : ActivityLog) "1.2.3.4" ∨ recC4.timestamp = 0) :=
  ⟨(c4_timestamps_are_wall_clock [patC4] (fun _ => some "1.2.3.4") 0 [] "a" listC4 threatC4).1
      (by decide) (by decide),
   (c4_timestamps_are_wall_clock [patC4] (fun _ => some "1.2.3.4") 0 [] "a" listC4 threatC4).2
      "1.2.3.4" recC4 (by decide)⟩
